import Mathlib

/-!
# An on-screen calculator: input state machine and RPN engine

Shallow embedding of `src/components/rpn.js` (shunting-yard conversion and
postfix evaluation), of `src/components/calculator.js` (the keystroke state
machine `initState` and the click handler of `initCalculator`) and of the error
texts of `src/bundles/index.js`.

Conventions of the embedding.

* JavaScript strings are Lean `String`s; arrays are `List`s in index order
  (`push` appends at the end), except the two working stacks of `rpn.js`, which
  are only ever used through `push` / `pop` / `length` and are kept with their
  top at the head of the list.
* JavaScript numbers are modelled over exact rationals (`Num`): a finite value
  is a rational, `NaN` and the two infinities are separate values. Rounding of
  binary floating point and the sign of zero are not modelled.
* A `throw` is an `Except.error`; a loop that never ends is the value `none`.
* Property lookups in the two object literals of `rpn.js` (`precedence`,
  `operators`) are modelled on their own properties. A token that names a
  member inherited from `Object.prototype` (`inheritedMember`) makes
  `operators[token]` a value that is not one of the four functions; the model
  does not describe such runs of `evaluatePostfix`, and every statement made
  for all expressions assumes that no token is such a name.
-/

namespace RpnCalculator

deriving instance DecidableEq for Except

/-! ## JavaScript numbers over exact rationals -/

/-- A JavaScript number: a finite value (exact rational), an infinity, or NaN. -/
inductive Num where
  | fin (q : ℚ)
  | inf (negative : Bool)
  | nan
  deriving DecidableEq

namespace Num

/-- JavaScript `a + b` on numbers. -/
def add : Num → Num → Num
  | fin a, fin b => fin (a + b)
  | fin _, inf s => inf s
  | inf s, fin _ => inf s
  | inf s, inf t => if s = t then inf s else nan
  | _, _ => nan

/-- JavaScript `a - b` on numbers. -/
def sub : Num → Num → Num
  | fin a, fin b => fin (a - b)
  | fin _, inf s => inf (!s)
  | inf s, fin _ => inf s
  | inf s, inf t => if s = t then nan else inf s
  | _, _ => nan

/-- JavaScript `a * b` on numbers. -/
def mul : Num → Num → Num
  | fin a, fin b => fin (a * b)
  | fin a, inf s => if a = 0 then nan else inf (xor s (decide (a < 0)))
  | inf s, fin b => if b = 0 then nan else inf (xor s (decide (b < 0)))
  | inf s, inf t => inf (xor s t)
  | _, _ => nan

/-- JavaScript `a / b` on numbers; a zero divisor is taken as `+0`. -/
def div : Num → Num → Num
  | fin a, fin b =>
    if b = 0 then (if a = 0 then nan else inf (decide (a < 0))) else fin (a / b)
  | fin _, inf _ => fin 0
  | inf s, fin b => inf (xor s (decide (b < 0)))
  | inf _, inf _ => nan
  | _, _ => nan

/-- JavaScript `a % b`: the remainder of the truncating division, with the
sign of the dividend. -/
def rem : Num → Num → Num
  | fin a, fin b =>
    if b = 0 then nan else fin (a - b * (((a / b).num.tdiv (a / b).den : ℤ) : ℚ))
  | fin a, inf _ => fin a
  | _, _ => nan

/-- JavaScript `a > b`: every comparison with NaN is false. -/
def gt : Num → Num → Bool
  | fin a, fin b => decide (b < a)
  | fin _, inf s => s
  | inf s, fin _ => !s
  | inf s, inf t => !s && t
  | _, _ => false

/-- Truthiness of a number: every number but `0` and `NaN` is truthy. -/
def truthy : Num → Bool
  | fin q => decide (q ≠ 0)
  | inf _ => true
  | nan => false

/-- Whether a number is a finite value with a non-zero fractional part. -/
def fractional : Num → Bool
  | fin q => decide (q.den ≠ 1)
  | _ => false

/-- Whether a number is a finite integer. -/
def integral : Num → Bool
  | fin q => decide (q.den = 1)
  | _ => false

/-- Left-pad a digit string with zeros up to the given length. -/
def padZeros (len : Nat) (m : List Char) : List Char :=
  List.replicate (len - m.length) '0' ++ m

/-- The source's `Number.prototype.toFixed(f)` over exact rationals: round half away from
zero to `f` decimals and print in decimal notation. (The switch to exponent
notation at `1e21` is not modelled.) -/
def toFixed (x : Num) (f : Nat) : String :=
  match x with
  | nan => "NaN"
  | inf false => "Infinity"
  | inf true => "-Infinity"
  | fin q =>
    let s : String := if q < 0 then "-" else ""
    let n : Nat := (2 * q.num.natAbs * 10 ^ f + q.den) / (2 * q.den)
    let m : List Char := (Nat.repr n).data
    if f = 0 then s ++ String.mk m
    else
      let m := padZeros (f + 1) m
      s ++ String.mk (m.take (m.length - f)) ++ "." ++ String.mk (m.drop (m.length - f))

end Num

/-! ## Strings: `split(/\s+/)`, `join`, `parseFloat` -/

/-- The characters matched by `\s` (white space and line terminators). -/
def isWhiteSpace (c : Char) : Bool :=
  let n := c.toNat
  n == 0x20 || n == 0x09 || n == 0x0A || n == 0x0B || n == 0x0C || n == 0x0D ||
  n == 0xA0 || n == 0x1680 || (0x2000 ≤ n && n ≤ 0x200A) || n == 0x2028 ||
  n == 0x2029 || n == 0x202F || n == 0x205F || n == 0x3000 || n == 0xFEFF

/-- Worker of `split`: `inSep` says that the previous character belonged to a
separator, `cur` is the piece being read, reversed. -/
def splitAux : List Char → Bool → List Char → List String
  | [], _, cur => [String.mk cur.reverse]
  | c :: cs, inSep, cur =>
    if isWhiteSpace c then
      (if inSep then splitAux cs true cur
       else String.mk cur.reverse :: splitAux cs true [])
    else splitAux cs false (c :: cur)

/-- The source's `s.split(/\s+/)`: the pieces between maximal runs of white space; a
leading or trailing run gives an empty first or last piece. -/
def split (s : String) : List String := splitAux s.data false []

/-- The source's `xs.join(sep)`. -/
def join (sep : String) : List String → String
  | [] => ""
  | [x] => x
  | x :: y :: rest => x ++ sep ++ join sep (y :: rest)

/-- Decimal digit test. -/
def isDigit (c : Char) : Bool := 48 ≤ c.toNat && c.toNat ≤ 57

/-- Value of a string of decimal digits. -/
def digitsValue (ds : List Char) : Nat :=
  ds.foldl (fun n c => 10 * n + (c.toNat - 48)) 0

/-- The exponent part `e±ddd` of a decimal literal, `0` when there is none. -/
def exponentOf : List Char → Int
  | c :: rest =>
    if c = 'e' ∨ c = 'E' then
      match rest with
      | '-' :: ds =>
        if (ds.takeWhile isDigit).isEmpty then 0
        else - (digitsValue (ds.takeWhile isDigit) : Int)
      | '+' :: ds => (digitsValue (ds.takeWhile isDigit) : Int)
      | ds => (digitsValue (ds.takeWhile isDigit) : Int)
    else 0
  | [] => 0

/-- An unsigned decimal literal at the head of the characters. -/
def parseUnsigned (negative : Bool) (cs : List Char) : Num :=
  if "Infinity".data.isPrefixOf cs then Num.inf negative
  else
    let ip := cs.takeWhile isDigit
    let r1 := cs.dropWhile isDigit
    let fp := match r1 with
      | '.' :: r => r.takeWhile isDigit
      | _ => []
    let r2 := match r1 with
      | '.' :: r => r.dropWhile isDigit
      | _ => r1
    if ip.isEmpty && fp.isEmpty then Num.nan
    else
      let m : ℚ := (digitsValue (ip ++ fp) : ℚ)
      let e : Int := exponentOf r2 - (fp.length : Int)
      let v : ℚ := if 0 ≤ e then m * ((10 ^ e.toNat : Nat) : ℚ)
                   else m / ((10 ^ (-e).toNat : Nat) : ℚ)
      Num.fin (if negative then -v else v)

/-- The source's `parseFloat(s)`: skip leading white space, then read the longest prefix
that is a signed decimal literal; `NaN` when there is none. -/
def parseFloat (s : String) : Num :=
  match s.data.dropWhile isWhiteSpace with
  | '-' :: r => parseUnsigned true r
  | '+' :: r => parseUnsigned false r
  | cs => parseUnsigned false cs

/-! ## `rpn.js`: the expression engine -/

/-- The table `precedence` of `infixToPostfix` on its own keys; `none` is
`undefined`. An inherited member is a function or an object, which compares
as `NaN`: `precedenceGe` is false for it as it is for `undefined`. -/
def precedence (token : String) : Option Nat :=
  if token = "+" then some 1
  else if token = "-" then some 1
  else if token = "×" then some 2
  else if token = "÷" then some 2
  else none

/-- The test `precedence[top] >= precedence[token]`: a comparison with
`undefined` is false. -/
def precedenceGe (top token : String) : Bool :=
  match precedence top, precedence token with
  | some a, some b => decide (b ≤ a)
  | _, _ => false

/-- The loop of the `)` branch: pop operators to the output until `(` is
popped. On an empty stack `pop()` returns `undefined`, which is not `(`, and
the loop goes on for ever: the result is `none`. -/
def popUntilOpen : List String → List String → Option (List String × List String)
  | [], _ => none
  | top :: operators, output =>
    if top = "(" then some (operators, output)
    else popUntilOpen operators (output ++ [top])

/-- The loop of the operator branch: pop to the output while the stack is not
empty and its top has a precedence at least that of `token`. -/
def popWhileGe (token : String) : List String → List String → List String × List String
  | [], output => ([], output)
  | top :: operators, output =>
    if precedenceGe top token then popWhileGe token operators (output ++ [top])
    else (top :: operators, output)

/-- One iteration of the token loop of `infixToPostfix` on the pair
(operator stack, output). -/
def infixStep (operators output : List String) (token : String) :
    Option (List String × List String) :=
  if (parseFloat token).truthy then some (operators, output ++ [token])
  else if token = "(" then some (token :: operators, output)
  else if token = ")" then popUntilOpen operators output
  else
    let r := popWhileGe token operators output
    some (token :: r.1, r.2)

/-- The token loop of `infixToPostfix`. -/
def infixLoop : List String → List String → List String → Option (List String × List String)
  | [], operators, output => some (operators, output)
  | token :: rest, operators, output =>
    match infixStep operators output token with
    | none => none
    | some r => infixLoop rest r.1 r.2

/-- The source's `infixToPostfix(expr)`: shunting-yard conversion of a space separated
infix expression; `none` when the `)` loop never ends. The final loop pops the
whole operator stack to the output, top first. -/
def infixToPostfix (expr : String) : Option String :=
  match infixLoop (split expr) [] [] with
  | none => none
  | some r => some (join " " (r.2 ++ r.1))

/-- The names of the members that an object literal inherits from
`Object.prototype`: for these `precedence[token]` and `operators[token]` are
not `undefined` although the literal has no such key. -/
def inheritedMember (token : String) : Bool :=
  token ∈ ["constructor", "hasOwnProperty", "isPrototypeOf", "propertyIsEnumerable",
    "toLocaleString", "toString", "valueOf", "__proto__", "__defineGetter__",
    "__defineSetter__", "__lookupGetter__", "__lookupSetter__"]

/-- The table `operators` of `evaluatePostfix` on its own keys; `none` is
`undefined`. This is the source's `operators[token]` for every token that is
not an `inheritedMember`; for such a name the source finds the inherited
member (truthy, and applied to the two popped values), which the model leaves
out. -/
def operators (token : String) : Option (Num → Num → Num) :=
  if token = "+" then some Num.add
  else if token = "-" then some Num.sub
  else if token = "×" then some Num.mul
  else if token = "÷" then some Num.div
  else none

/-- An arithmetic operand read from `stack.pop()`: `undefined` (the stack was
empty) converts to `NaN`. -/
def toNumber : Option Num → Num
  | some x => x
  | none => Num.nan

/-- One iteration of the token loop of `evaluatePostfix` on the value stack. -/
def evalStep (stack : List Num) (token : String) : List Num :=
  if (parseFloat token).truthy || token == "0" then parseFloat token :: stack
  else
    match operators token with
    | some f =>
      let b := stack.head?
      let a := stack.tail.head?
      f (toNumber a) (toNumber b) :: stack.tail.tail
    | none => stack

/-- The value stack of `evaluatePostfix` after the token loop. -/
def evalStack (expr : String) : List Num :=
  (split expr).foldl evalStep []

/-- The source's `evaluatePostfix(expr)`: throws unless exactly one value is left. -/
def evaluatePostfix (expr : String) : Except String Num :=
  match evalStack expr with
  | [v] => Except.ok v
  | _ => Except.error "Invalid postfix expression"

/-! ## `bundles/index.js`: the error texts -/

/-- The object `settings.errors`: one text per validation rule. -/
structure Errors where
  waitForNumber : String
  canNotChangeSign : String
  delimiterAlreadySet : String
  canNotOpenBracket : String
  canNotCloseBracket : String
  canNotSelectOperator : String
  deriving DecidableEq

/-- The texts configured in `bundles/index.js`. -/
def settingsErrors : Errors where
  waitForNumber := "ожидается число"
  canNotChangeSign := "нельзя поменять знак"
  delimiterAlreadySet := "разделитель уже установлен"
  canNotOpenBracket := "сейчас нельзя открыть скобку"
  canNotCloseBracket := "сейчас нельзя закрыть скобку"
  canNotSelectOperator := "сейчас нельзя ввести оператор"

/-! ## `calculator.js`: the input state machine (`initState`) -/

/-- The state object of `initState`. -/
structure State where
  currentNum : String
  currentSign : Int
  currentComma : Bool
  bracketCount : Int
  waitFor : List String
  stack : List String
  deriving DecidableEq

/-- A button press `{ type, value }`. -/
structure Action where
  type : String
  value : String
  deriving DecidableEq

/-- The source's `reset()`: the empty state. -/
def reset : State where
  currentNum := ""
  currentSign := 1
  currentComma := false
  bracketCount := 0
  waitFor := ["num", "open-bracket"]
  stack := []

/-- The source's `formatNum(state)`: the pending operand, wrapped as `(-N)` when negative. -/
def formatNum (state : State) : String :=
  if state.currentSign > 0 then state.currentNum
  else "(-" ++ state.currentNum ++ ")"

/-- The source's `checkWait(type, error)`: throws `error` unless `type` is in `waitFor`. -/
def checkWait (state : State) (type error : String) : Except String Unit :=
  if type ∈ state.waitFor then Except.ok () else Except.error error

/-- The source's `checkBrackets(canOpen)`. -/
def checkBrackets (state : State) (canOpen : Bool) : State :=
  let state :=
    if state.bracketCount = 0 then
      { state with waitFor := state.waitFor.filter (fun v => v != "close-bracket") }
    else
      { state with waitFor := state.waitFor ++ ["close-bracket"] }
  if canOpen then { state with waitFor := state.waitFor ++ ["open-bracket"] } else state

/-- The source's `checkComma()`. -/
def checkComma (state : State) : State :=
  if state.currentComma then { state with waitFor := ["num", "sign"] }
  else { state with waitFor := ["num", "sign", "comma"] }

/-- The source's `checkOperators()`: a string is truthy when it is not empty. -/
def checkOperators (state : State) : State :=
  if state.currentNum ≠ "" then { state with waitFor := state.waitFor ++ ["op"] }
  else { state with waitFor := state.waitFor.filter (fun v => v != "op") }

/-- The source's `parseNum()`: move the pending operand, if any, to the token stack. -/
def parseNum (state : State) : State :=
  if state.currentNum ≠ "" then
    { state with
      stack := state.stack ++ [formatNum state]
      currentNum := ""
      currentSign := 1
      currentComma := false }
  else state

/-- The result of running a handler on the scratch copy `state`: what was
thrown, if anything, and the scratch copy at that moment. -/
abbrev Run := Except String Unit × State

/-- The source's `inputNum(value)`. -/
def inputNum (errors : Errors) (state : State) (value : String) : Run :=
  match checkWait state "num" errors.waitForNumber with
  | Except.error e => (Except.error e, state)
  | Except.ok _ =>
    let state := { state with currentNum := state.currentNum ++ value }
    let state := checkComma state
    let state := checkBrackets state false
    (Except.ok (), checkOperators state)

/-- The source's `inputSign()`. -/
def inputSign (errors : Errors) (state : State) : Run :=
  match checkWait state "sign" errors.canNotChangeSign with
  | Except.error e => (Except.error e, state)
  | Except.ok _ => (Except.ok (), { state with currentSign := state.currentSign * (-1) })

/-- The source's `inputComma()`. -/
def inputComma (errors : Errors) (state : State) : Run :=
  match checkWait state "comma" errors.delimiterAlreadySet with
  | Except.error e => (Except.error e, state)
  | Except.ok _ =>
    let state := { state with currentNum := state.currentNum ++ "." }
    let state := { state with currentComma := true }
    let state := { state with waitFor := ["num"] }
    (Except.ok (), checkComma state)

/-- The source's `inputOpenBracket()`. -/
def inputOpenBracket (errors : Errors) (state : State) : Run :=
  match checkWait state "open-bracket" errors.canNotOpenBracket with
  | Except.error e => (Except.error e, state)
  | Except.ok _ =>
    let state := parseNum state
    let state := { state with stack := state.stack ++ ["("] }
    let state := { state with bracketCount := state.bracketCount + 1 }
    (Except.ok (), checkBrackets state true)

/-- The source's `inputCloseBracket()`. -/
def inputCloseBracket (errors : Errors) (state : State) : Run :=
  match checkWait state "close-bracket" errors.canNotCloseBracket with
  | Except.error e => (Except.error e, state)
  | Except.ok _ =>
    let state := parseNum state
    let state := { state with stack := state.stack ++ [")"] }
    let state := { state with bracketCount := state.bracketCount - 1 }
    (Except.ok (), checkBrackets state true)

/-- The source's `inputOperand(value)`. -/
def inputOperand (errors : Errors) (state : State) (value : String) : Run :=
  match checkWait state "op" errors.canNotSelectOperator with
  | Except.error e => (Except.error e, state)
  | Except.ok _ =>
    let state := parseNum state
    let state := { state with stack := state.stack ++ [value] }
    let state := checkBrackets state true
    (Except.ok (), checkOperators state)

/-- The body of `input` after `state = Object.assign({}, prevState)`: the
`switch` that routes the action to its handler. In the `mod` case the two
`if`s run one after the other. -/
def inputRun (errors : Errors) (prevState : State) (action : Action) : Run :=
  let state := prevState
  if action.type = "num" then inputNum errors state action.value
  else if action.type = "mod" then
    let r := if action.value = "," then inputComma errors state else (Except.ok (), state)
    match r with
    | (Except.error e, state) => (Except.error e, state)
    | (Except.ok _, state) =>
      if action.value = "±" then inputSign errors state else (Except.ok (), state)
  else if action.type = "op" then
    if action.value = "(" then inputOpenBracket errors state
    else if action.value = ")" then inputCloseBracket errors state
    else inputOperand errors state action.value
  else (Except.ok (), state)

/-- The source's `input(prevState, action)`: the next state, or the error text thrown. -/
def input (errors : Errors) (prevState : State) (action : Action) : Except String State :=
  match inputRun errors prevState action with
  | (Except.error e, _) => Except.error e
  | (Except.ok _, state) => Except.ok state

/-- What `prevState` holds after the call `input(prevState, action)`: the copy
made by `Object.assign` is shallow, so `prevState.stack` is the array the
handlers pushed to; the other fields were reassigned on the copy only. -/
def prevStateAfter (errors : Errors) (prevState : State) (action : Action) : State :=
  { prevState with stack := (inputRun errors prevState action).2.stack }

/-- The source's `getEquation(state)`. -/
def getEquation (state : State) : String :=
  join "" state.stack ++ formatNum state

/-- The replacement `v.replace(/[\(\)]/g, "")`: every bracket character of the
string is removed. -/
def stripBrackets (v : String) : String :=
  String.mk (v.data.filter (fun c => c != '(' && c != ')'))

/-- The local `items` of `getPostfixEquation`. -/
def postfixItems (state : State) : List String :=
  if state.currentNum ≠ "" then state.stack ++ [formatNum state] else state.stack

/-- The local `infix` of `getPostfixEquation`: the string handed to
`infixToPostfix`. -/
def infixSource (state : State) : String :=
  join " " ((postfixItems state).map stripBrackets)

/-- The source's `getPostfixEquation(state)`. -/
def getPostfixEquation (state : State) : Option String :=
  infixToPostfix (infixSource state)

/-! ## `calculator.js`: the display and the click handler (`initCalculator`) -/

/-- The three text panels of `initDisplay` and the "calculated" modifier of the
equation panel. -/
structure Display where
  error : String
  equation : String
  result : String
  calculated : Bool
  deriving DecidableEq

namespace Display

/-- The source's `setError(value)`; `none` is a call without argument. -/
def setError (d : Display) (value : Option String) : Display :=
  { d with error := value.getD "" }

/-- The source's `setEquation(value)`. -/
def setEquation (d : Display) (value : Option String) : Display :=
  { d with equation := value.getD "" }

/-- The source's `setResult(value)`: also sets the "calculated" modifier to `!!value`. -/
def setResult (d : Display) (value : Option String) : Display :=
  { d with result := value.getD "", calculated := decide (value.getD "" ≠ "") }

/-- The `reset()` of the display. -/
def reset (d : Display) : Display :=
  ((d.setError none).setEquation none).setResult none

end Display

/-- The calculator of `initCalculator`: its display and the variable `current`. -/
structure Calculator where
  display : Display
  current : State
  deriving DecidableEq

/-- The number of decimals the evaluate action prints: `result % 1 > 0` selects
`toFixed(2)`, anything else `toFixed(0)`. -/
def resultDecimals (result : Num) : Nat :=
  if Num.gt (Num.rem result (Num.fin 1)) (Num.fin 0) then 2 else 0

/-- The click handler that `initCalculator` installs on every button. `none`
means the handler never returns (the conversion to postfix does not end). -/
def onClick (errors : Errors) (c : Calculator) (action : Action) : Option Calculator :=
  if action.type = "act" ∧ action.value = "C" then
    some { display := c.display.reset, current := reset }
  else if action.type = "act" ∧ action.value = "=" then
    if c.current.stack.length = 0 then some c
    else if c.current.bracketCount ≠ 0 then
      some { c with display := c.display.setError (some "незакрыта скобка") }
    else
      match getPostfixEquation c.current with
      | none => none
      | some expr =>
        match evaluatePostfix expr with
        | Except.ok result =>
          some { display := c.display.setResult (some (result.toFixed (resultDecimals result)))
                 current := reset }
        | Except.error _ =>
          some { c with display := c.display.setError (some "некорректное выражение") }
  else
    let display := if c.current.stack.length = 0 then c.display.setResult none else c.display
    match input errors c.current action with
    | Except.ok next =>
      some { display := (display.setEquation (some (getEquation next))).setError none
             current := next }
    | Except.error err =>
      some { display := display.setError (some err)
             current := prevStateAfter errors c.current action }

/-- A run of clicks, one after the other. -/
def clicks (errors : Errors) : Calculator → List Action → Option Calculator
  | c, [] => some c
  | c, action :: rest =>
    match onClick errors c action with
    | none => none
    | some c1 => clicks errors c1 rest

/-- The calculator right after the clear button: empty panels, empty state. -/
def cleared : Calculator where
  display := { error := "", equation := "", result := "", calculated := false }
  current := reset

/-- Modelled from the spec: the keypad, which lives in the page markup and is
not part of the scripts. Per the data model an input event is a digit
(`NumberDigit`, symbols `0` to `9`), a modifier (`,` or `±`) or an operator
(one of `+ - × ÷ ( )`); the actions `C` and `=` never reach `input`. -/
def keypad : List Action :=
  (["0", "1", "2", "3", "4", "5", "6", "7", "8", "9"].map (fun v => Action.mk "num" v)) ++
  ([",", "±"].map (fun v => Action.mk "mod" v)) ++
  (["+", "-", "×", "÷", "(", ")"].map (fun v => Action.mk "op" v))

/-- The states the calculator can be in: `reset()` and every state returned by
`input` for a key of the keypad from such a state. -/
inductive Reachable (errors : Errors) : State → Prop
  | reset : Reachable errors reset
  | step {s next : State} {action : Action} :
      Reachable errors s → action ∈ keypad → input errors s action = Except.ok next →
      Reachable errors next

/-- A run of `input` calls from a state: the last state when every action is
accepted, the first error otherwise. -/
def inputs (errors : Errors) : State → List Action → Except String State
  | s, [] => Except.ok s
  | s, action :: rest =>
    match input errors s action with
    | Except.ok next => inputs errors next rest
    | Except.error e => Except.error e

/-! ## Reference semantics, written from the specification

The definitions of this section follow the words of the specification, not the
code: they are what the code is compared with. -/

/-- Reference meaning of an operator symbol. -/
def refApply (op : String) (a b : Num) : Num :=
  if op = "+" then a.add b
  else if op = "-" then a.sub b
  else if op = "×" then a.mul b
  else a.div b

mutual
/-- Reference evaluator, factor level: a numeric token or a bracketed
expression. -/
def refFactor : Nat → List String → Option (Num × List String)
  | 0, _ => none
  | _ + 1, [] => none
  | fuel + 1, t :: rest =>
    if t = "(" then
      match refExpr fuel rest with
      | some (v, t1 :: rest1) => if t1 = ")" then some (v, rest1) else none
      | _ => none
    else if t = ")" ∨ (precedence t).isSome then none
    else some (parseFloat t, rest)
/-- Reference evaluator, term level: factors joined by `×` and `÷`, grouped
from the left. -/
def refTerm : Nat → List String → Option (Num × List String)
  | 0, _ => none
  | fuel + 1, ts =>
    match refFactor fuel ts with
    | some (v, rest) => refTermTail fuel v rest
    | none => none
/-- Reference evaluator: the rest of a term, given the value read so far. -/
def refTermTail : Nat → Num → List String → Option (Num × List String)
  | 0, _, _ => none
  | fuel + 1, v, op :: rest =>
    if op = "×" ∨ op = "÷" then
      match refFactor fuel rest with
      | some (w, rest1) => refTermTail fuel (refApply op v w) rest1
      | none => none
    else some (v, op :: rest)
  | _ + 1, v, [] => some (v, [])
/-- Reference evaluator, expression level: terms joined by `+` and `-`,
grouped from the left. -/
def refExpr : Nat → List String → Option (Num × List String)
  | 0, _ => none
  | fuel + 1, ts =>
    match refTerm fuel ts with
    | some (v, rest) => refExprTail fuel v rest
    | none => none
/-- Reference evaluator: the rest of an expression, given the value read so
far. -/
def refExprTail : Nat → Num → List String → Option (Num × List String)
  | 0, _, _ => none
  | fuel + 1, v, op :: rest =>
    if op = "+" ∨ op = "-" then
      match refTerm fuel rest with
      | some (w, rest1) => refExprTail fuel (refApply op v w) rest1
      | none => none
    else some (v, op :: rest)
  | _ + 1, v, [] => some (v, [])
end

/-- Reference value of an infix token sequence: usual precedence, grouping
from the left, brackets; `none` when the sequence is not a well-formed
expression. -/
def referenceValue (tokens : List String) : Option Num :=
  match refExpr (4 * tokens.length + 4) tokens with
  | some (v, []) => some v
  | _ => none

/-- The token stream the specification describes for the conversion: a
negative operand `(-N)` becomes the single token `-N`, every other token is
kept as it is. -/
def flattenNegative (v : String) : String :=
  match v.data with
  | '(' :: '-' :: rest => if rest.getLast? = some ')' then String.mk ('-' :: rest.dropLast) else v
  | _ => v

/-- The infix tokens the specification describes for a state. -/
def specInfixTokens (state : State) : List String :=
  (postfixItems state).map flattenNegative


/-! ## Concrete states used in the scenarios -/

/-- The state after the keys `3 + 5 × ( 2 - 8 )`. -/
def stateScenario1 : State where
  currentNum := ""
  currentSign := 1
  currentComma := false
  bracketCount := 0
  waitFor := ["num", "sign", "comma", "op", "open-bracket"]
  stack := ["3", "+", "5", "×", "(", "2", "-", "8", ")"]

/-- The state after the keys `0 + 5`. -/
def state0Plus5 : State where
  currentNum := "5"
  currentSign := 1
  currentComma := false
  bracketCount := 0
  waitFor := ["num", "sign", "comma", "op"]
  stack := ["0", "+"]

/-- The state after the keys `( 2 - 8 ) × 3`. -/
def stateBracketFirst : State where
  currentNum := "3"
  currentSign := 1
  currentComma := false
  bracketCount := 0
  waitFor := ["num", "sign", "comma", "op"]
  stack := ["(", "2", "-", "8", ")", "×"]

/-- The category an action needs in `waitFor`, with the error text of that
category; `none` for an action that `input` lets through unchecked. -/
def required (errors : Errors) (action : Action) : Option (String × String) :=
  if action.type = "num" then some ("num", errors.waitForNumber)
  else if action.type = "mod" then
    if action.value = "±" then some ("sign", errors.canNotChangeSign)
    else if action.value = "," then some ("comma", errors.delimiterAlreadySet)
    else none
  else if action.type = "op" then
    if action.value = "(" then some ("open-bracket", errors.canNotOpenBracket)
    else if action.value = ")" then some ("close-bracket", errors.canNotCloseBracket)
    else some ("op", errors.canNotSelectOperator)
  else none

/-- The facts that hold of every state the calculator can be in. -/
structure Inv (s : State) : Prop where
  chars : ∀ c ∈ s.currentNum.data, isDigit c = true ∨ c = '.'
  count : s.bracketCount = (s.stack.count "(" : Int) - (s.stack.count ")" : Int)
  nonneg : 0 ≤ s.bracketCount
  close : "close-bracket" ∈ s.waitFor → 0 < s.bracketCount
  comma : "comma" ∈ s.waitFor → s.currentComma = false
  commaNum : s.currentComma = true → s.currentNum ≠ ""
  dots : s.currentNum.data.count '.' = if s.currentComma then 1 else 0
  num : "num" ∈ s.waitFor
  openB : "open-bracket" ∈ s.waitFor ↔ s.currentNum = ""

/-- The state after the key `(`. -/
def stateOpen : State where
  currentNum := ""
  currentSign := 1
  currentComma := false
  bracketCount := 1
  waitFor := ["num", "open-bracket", "close-bracket", "open-bracket"]
  stack := ["("]

/-- The state after the keys `( 3 + 4`. -/
def stateOpen34 : State where
  currentNum := "4"
  currentSign := 1
  currentComma := false
  bracketCount := 1
  waitFor := ["num", "sign", "comma", "close-bracket", "op"]
  stack := ["(", "3", "+"]

/-- The state after the keys `5 ,`. -/
def state5Point : State where
  currentNum := "5."
  currentSign := 1
  currentComma := true
  bracketCount := 0
  waitFor := ["num", "sign"]
  stack := []

/-- The state after the keys `3 +`. -/
def state3Plus : State where
  currentNum := ""
  currentSign := 1
  currentComma := false
  bracketCount := 0
  waitFor := ["num", "sign", "comma", "open-bracket"]
  stack := ["3", "+"]

/-- The state after the keys `3 , 5`. -/
def state3Point5 : State where
  currentNum := "3.5"
  currentSign := 1
  currentComma := true
  bracketCount := 0
  waitFor := ["num", "sign", "op"]
  stack := []

/-- The state after the keys `3 ,`. -/
def state3Point : State where
  currentNum := "3."
  currentSign := 1
  currentComma := true
  bracketCount := 0
  waitFor := ["num", "sign"]
  stack := []

/-- Whether `evaluatePostfix` pushes the token as a number. -/
def isPushed (token : String) : Bool :=
  (parseFloat token).truthy || token == "0"

/-- The number of values on the evaluation stack after one more token: a
pushed number adds one; an operator takes the two top values, or as many as
there are, and leaves one; any other token leaves the stack alone. -/
def depthStep (depth : Nat) (token : String) : Nat :=
  if isPushed token then depth + 1
  else if (operators token).isSome then (depth - 2) + 1
  else depth

/-- The number of values on the evaluation stack after a token sequence. -/
def depthAfter (tokens : List String) : Nat :=
  tokens.foldl depthStep 0

/-- No operator of the sequence finds fewer than two values on the stack,
starting from the given depth. -/
def noUnderflow : List String → Nat → Bool
  | [], _ => true
  | token :: rest, depth =>
    if isPushed token then noUnderflow rest (depth + 1)
    else if (operators token).isSome then decide (2 ≤ depth) && noUnderflow rest (depth - 1)
    else noUnderflow rest depth

/-- The tokens of the sequence that are pushed as numbers. -/
def operandCount (tokens : List String) : Nat :=
  (tokens.filter isPushed).length

/-- The tokens of the sequence that are applied as operators. -/
def operatorCount (tokens : List String) : Nat :=
  (tokens.filter (fun t => !isPushed t && (operators t).isSome)).length

/-- The state after the keys `3 + ±`. -/
def state3PlusNeg : State where
  currentNum := ""
  currentSign := -1
  currentComma := false
  bracketCount := 0
  waitFor := ["num", "sign", "comma", "open-bracket"]
  stack := ["3", "+"]

/-- The state after the keys `( 3 ) (`. -/
def stateCloseOpen : State where
  currentNum := ""
  currentSign := 1
  currentComma := false
  bracketCount := 1
  waitFor := ["num", "sign", "comma", "op", "open-bracket", "close-bracket", "open-bracket"]
  stack := ["(", "3", ")", "("]

/-- The state after the keys `( 3 ) ( +`. -/
def stateCloseOpenPlus : State where
  currentNum := ""
  currentSign := 1
  currentComma := false
  bracketCount := 1
  waitFor := ["num", "sign", "comma", "open-bracket", "close-bracket", "open-bracket",
    "close-bracket", "open-bracket"]
  stack := ["(", "3", ")", "(", "+"]

/-- The state after the keys `9 ±`. -/
def state9Neg : State where
  currentNum := "9"
  currentSign := -1
  currentComma := false
  bracketCount := 0
  waitFor := ["num", "sign", "comma", "op"]
  stack := []

/-- The state after the keys `5 , ±`. -/
def state5PointNeg : State where
  currentNum := "5."
  currentSign := -1
  currentComma := true
  bracketCount := 0
  waitFor := ["num", "sign"]
  stack := []

/-- The pending operand as the specification renders it: nothing when there is
none, `N` when the sign is positive, `(-N)` when it is negative. -/
def specPending (state : State) : String :=
  if state.currentNum = "" then ""
  else if state.currentSign > 0 then state.currentNum
  else "(-" ++ state.currentNum ++ ")"

/-- The digits typed by a run of keys, in order. -/
def typedDigits : List Action → String
  | [] => ""
  | a :: rest => (if a.type = "num" then a.value else "") ++ typedDigits rest

/-- The number of sign flips in a run of keys. -/
def signFlips : List Action → Nat
  | [] => 0
  | a :: rest => (if a = ⟨"mod", "±"⟩ then 1 else 0) + signFlips rest

/-- Every `)` of the token sequence is matched by an earlier unclosed `(`:
`depth` counts the brackets open so far. -/
def closesMatched : List String → Nat → Bool
  | [], _ => true
  | token :: rest, depth =>
    if token = "(" then closesMatched rest (depth + 1)
    else if token = ")" then decide (0 < depth) && closesMatched rest (depth - 1)
    else closesMatched rest depth

/-- Whether a token is one of the four operators. -/
def isOperatorToken (token : String) : Bool :=
  token == "+" || token == "-" || token == "×" || token == "÷"

/-- No two neighbours of the token sequence are both operators. -/
def noAdjacentOperators : List String → Bool
  | a :: b :: rest =>
    !(isOperatorToken a && isOperatorToken b) && noAdjacentOperators (b :: rest)
  | _ => true

/-- The facts about operators that hold of every state the calculator can be
in. -/
structure OpInv (s : State) : Prop where
  chain : noAdjacentOperators s.stack = true
  lastOp : s.currentNum = "" → ∀ t, s.stack.getLast? = some t →
    isOperatorToken t = true → "op" ∉ s.waitFor
  emptyOp : s.currentNum = "" → s.stack = [] → "op" ∉ s.waitFor

/-! ## The round trip through the expression engine -/

set_option maxRecDepth 4096 in
/-- C1 (fails on the code): the infix tokens `0 + 5` are well formed and worth
`5` for the reference evaluator, but `infixToPostfix` does not take the token
`0` for a number (`parseFloat("0")` is falsy) and moves it behind the operator;
`evaluatePostfix` then throws on the result `5 + 0`: the keys `0 + 5 =` end in
the invalid-expression error. -/
theorem roundtrip_zero_operand :
    referenceValue ["0", "+", "5"] = some (Num.fin 5) ∧
    infixToPostfix (join " " ["0", "+", "5"]) = some "5 + 0" ∧
    evaluatePostfix "5 + 0" = Except.error "Invalid postfix expression" ∧
    clicks settingsErrors cleared
        [⟨"num", "0"⟩, ⟨"op", "+"⟩, ⟨"num", "5"⟩, ⟨"act", "="⟩]
      = some ⟨⟨"некорректное выражение", "0+5", "", false⟩, state0Plus5⟩ := by
  refine ⟨?_, ?_, ?_, ?_⟩ <;> with_unfolding_all decide

/-- C2 as stated fails: after the keys `3 + 5 × ( 2 - 8 )` the evaluate action
hands `3 5 2 × + 8  -` to the evaluator and prints `5`; and the postfix
`3 5 2 8 - × +` of the claim is worth `-27`, not `-15`. -/
theorem scenario1_not_minus_15 :
    clicks settingsErrors cleared
        [⟨"num", "3"⟩, ⟨"op", "+"⟩, ⟨"num", "5"⟩, ⟨"op", "×"⟩, ⟨"op", "("⟩,
         ⟨"num", "2"⟩, ⟨"op", "-"⟩, ⟨"num", "8"⟩, ⟨"op", ")"⟩, ⟨"act", "="⟩]
      = some ⟨⟨"", "3+5×(2-8)", "5", true⟩, reset⟩ ∧
    getPostfixEquation stateScenario1 = some "3 5 2 × + 8  -" ∧
    evaluatePostfix "3 5 2 8 - × +" ≠ Except.ok (Num.fin (-15)) := by
  refine ⟨?_, ?_, ?_⟩ <;> with_unfolding_all decide

/-- C2, amended: from the empty state the keys `3 + 5 × ( 2 - 8 )` are accepted
one by one and leave the tokens `3 + 5 × ( 2 - 8 )` on the stack;
`infixToPostfix` turns the infix `3 + 5 × ( 2 - 8 )` into `3 5 2 8 - × +`, and
`evaluatePostfix` gives `-27` for it, which is also the reference value. -/
theorem scenario1_accepted_and_value :
    inputs settingsErrors reset
        [⟨"num", "3"⟩, ⟨"op", "+"⟩, ⟨"num", "5"⟩, ⟨"op", "×"⟩, ⟨"op", "("⟩,
         ⟨"num", "2"⟩, ⟨"op", "-"⟩, ⟨"num", "8"⟩, ⟨"op", ")"⟩]
      = Except.ok stateScenario1 ∧
    infixToPostfix "3 + 5 × ( 2 - 8 )" = some "3 5 2 8 - × +" ∧
    evaluatePostfix "3 5 2 8 - × +" = Except.ok (Num.fin (-27)) ∧
    referenceValue ["3", "+", "5", "×", "(", "2", "-", "8", ")"] = some (Num.fin (-27)) := by
  refine ⟨?_, ?_, ?_, ?_⟩ <;> with_unfolding_all decide

/-- C3 (fails on the code): in the state reached by the keys `( 2 - 8 ) × 3`
the specification's stream keeps the brackets, `( 2 - 8 ) × 3`, worth `-18`,
while the string built by `getPostfixEquation` has lost them: `infixToPostfix`
reads the tokens `"" 2 - 8 × 3`, and the evaluate action prints `-22`. -/
theorem getPostfixEquation_drops_brackets :
    inputs settingsErrors reset
        [⟨"op", "("⟩, ⟨"num", "2"⟩, ⟨"op", "-"⟩, ⟨"num", "8"⟩, ⟨"op", ")"⟩,
         ⟨"op", "×"⟩, ⟨"num", "3"⟩]
      = Except.ok stateBracketFirst ∧
    specInfixTokens stateBracketFirst = ["(", "2", "-", "8", ")", "×", "3"] ∧
    referenceValue ["(", "2", "-", "8", ")", "×", "3"] = some (Num.fin (-18)) ∧
    split (infixSource stateBracketFirst) = ["", "2", "-", "8", "×", "3"] ∧
    clicks settingsErrors cleared
        [⟨"op", "("⟩, ⟨"num", "2"⟩, ⟨"op", "-"⟩, ⟨"num", "8"⟩, ⟨"op", ")"⟩,
         ⟨"op", "×"⟩, ⟨"num", "3"⟩, ⟨"act", "="⟩]
      = some ⟨⟨"", "(2-8)×3", "-22", true⟩, reset⟩ := by
  refine ⟨?_, ?_, ?_, ?_, ?_⟩ <;> with_unfolding_all decide

/-! ## The validation gate of `input` -/

theorem not_waited_iff (W : List String) (c x e : String) (hw : c ∉ W) :
    x = e ↔ ∃ cat, (c = cat ∧ x = e) ∧ cat ∉ W :=
  ⟨fun h => ⟨c, ⟨rfl, h⟩, hw⟩, fun ⟨_, ⟨_, h⟩, _⟩ => h⟩

theorem inputRun_error (errors : Errors) (s : State) (a : Action) (e : String) :
    ((inputRun errors s a).1 = Except.error e ↔
      ∃ cat, required errors a = some (cat, e) ∧ cat ∉ s.waitFor) ∧
    ((inputRun errors s a).1 = Except.error e → (inputRun errors s a).2 = s) := by
  unfold inputRun required inputNum inputSign inputComma inputOpenBracket inputCloseBracket
    inputOperand checkWait
  by_cases h1 : a.type = "num"
  · by_cases hw : "num" ∈ s.waitFor
    · simp [h1, hw]
    · simp [h1, hw]; exact not_waited_iff _ _ _ _ hw
  by_cases h2 : a.type = "mod"
  · by_cases hc : a.value = ","
    · have hs : a.value ≠ "±" := by rw [hc]; decide
      by_cases hw : "comma" ∈ s.waitFor
      · simp [h1, h2, hc, hw]
      · simp [h1, h2, hc, hw]; exact not_waited_iff _ _ _ _ hw
    · by_cases hs : a.value = "±"
      · by_cases hw : "sign" ∈ s.waitFor
        · simp [h1, h2, hs, hw]
        · simp [h1, h2, hs, hw]; exact not_waited_iff _ _ _ _ hw
      · simp [h1, h2, hc, hs]
  by_cases h3 : a.type = "op"
  · by_cases ho : a.value = "("
    · by_cases hw : "open-bracket" ∈ s.waitFor
      · simp [h1, h2, h3, ho, hw]
      · simp [h1, h2, h3, ho, hw]; exact not_waited_iff _ _ _ _ hw
    · by_cases hc : a.value = ")"
      · by_cases hw : "close-bracket" ∈ s.waitFor
        · simp [h1, h2, h3, ho, hc, hw]
        · simp [h1, h2, h3, ho, hc, hw]; exact not_waited_iff _ _ _ _ hw
      · by_cases hw : "op" ∈ s.waitFor
        · simp [h1, h2, h3, ho, hc, hw]
        · simp [h1, h2, h3, ho, hc, hw]; exact not_waited_iff _ _ _ _ hw
  · simp [h1, h2, h3]

theorem input_error_iff_run (errors : Errors) (s : State) (a : Action) (e : String) :
    input errors s a = Except.error e ↔ (inputRun errors s a).1 = Except.error e := by
  unfold input
  rcases h : inputRun errors s a with ⟨r, st⟩
  cases r <;> simp

/-- C4: `input(s, e)` throws exactly when the category the event needs is not
in `s.waitFor`; what is thrown is the error text of that category, and at that
moment neither the scratch copy nor the caller's state object has been
changed. An event that needs no category is never rejected. -/
theorem input_fails_iff_not_waited (errors : Errors) (s : State) (a : Action) :
    (∀ e, input errors s a = Except.error e ↔
      ∃ cat, required errors a = some (cat, e) ∧ cat ∉ s.waitFor) ∧
    (∀ e, input errors s a = Except.error e →
      (inputRun errors s a).2 = s ∧ prevStateAfter errors s a = s) := by
  refine ⟨fun e => (input_error_iff_run errors s a e).trans (inputRun_error errors s a e).1,
    fun e h => ?_⟩
  have h2 := (inputRun_error errors s a e).2 ((input_error_iff_run errors s a e).1 h)
  exact ⟨h2, by simp [prevStateAfter, h2]⟩

/-! ## The helpers of `input`, field by field -/

theorem mem_checkComma (s : State) (x : String) :
    x ∈ (checkComma s).waitFor ↔
      x = "num" ∨ x = "sign" ∨ (s.currentComma = false ∧ x = "comma") := by
  unfold checkComma
  cases h : s.currentComma <;> simp

theorem mem_checkBrackets (s : State) (canOpen : Bool) (x : String) :
    x ∈ (checkBrackets s canOpen).waitFor ↔
      (x ∈ s.waitFor ∧ (s.bracketCount = 0 → x ≠ "close-bracket")) ∨
      (s.bracketCount ≠ 0 ∧ x = "close-bracket") ∨
      (canOpen = true ∧ x = "open-bracket") := by
  unfold checkBrackets
  by_cases hb : s.bracketCount = 0 <;> cases canOpen <;>
    simp [hb, List.mem_filter]

theorem mem_checkOperators (s : State) (x : String) :
    x ∈ (checkOperators s).waitFor ↔
      (x ∈ s.waitFor ∧ (s.currentNum = "" → x ≠ "op")) ∨
      (s.currentNum ≠ "" ∧ x = "op") := by
  unfold checkOperators
  by_cases hn : s.currentNum = "" <;> simp [hn, List.mem_filter]

@[simp] theorem checkComma_currentNum (s : State) :
    (checkComma s).currentNum = s.currentNum := by
  cases h : s.currentComma <;> simp [checkComma, h]

@[simp] theorem checkComma_currentSign (s : State) :
    (checkComma s).currentSign = s.currentSign := by
  cases h : s.currentComma <;> simp [checkComma, h]

@[simp] theorem checkComma_currentComma (s : State) :
    (checkComma s).currentComma = s.currentComma := by
  cases h : s.currentComma <;> simp [checkComma, h]

@[simp] theorem checkComma_bracketCount (s : State) :
    (checkComma s).bracketCount = s.bracketCount := by
  cases h : s.currentComma <;> simp [checkComma, h]

@[simp] theorem checkComma_stack (s : State) :
    (checkComma s).stack = s.stack := by
  cases h : s.currentComma <;> simp [checkComma, h]

@[simp] theorem checkBrackets_currentNum (s : State) (canOpen : Bool) :
    (checkBrackets s canOpen).currentNum = s.currentNum := by
  by_cases hb : s.bracketCount = 0 <;> cases canOpen <;> simp [checkBrackets, hb]

@[simp] theorem checkBrackets_currentSign (s : State) (canOpen : Bool) :
    (checkBrackets s canOpen).currentSign = s.currentSign := by
  by_cases hb : s.bracketCount = 0 <;> cases canOpen <;> simp [checkBrackets, hb]

@[simp] theorem checkBrackets_currentComma (s : State) (canOpen : Bool) :
    (checkBrackets s canOpen).currentComma = s.currentComma := by
  by_cases hb : s.bracketCount = 0 <;> cases canOpen <;> simp [checkBrackets, hb]

@[simp] theorem checkBrackets_bracketCount (s : State) (canOpen : Bool) :
    (checkBrackets s canOpen).bracketCount = s.bracketCount := by
  by_cases hb : s.bracketCount = 0 <;> cases canOpen <;> simp [checkBrackets, hb]

@[simp] theorem checkBrackets_stack (s : State) (canOpen : Bool) :
    (checkBrackets s canOpen).stack = s.stack := by
  by_cases hb : s.bracketCount = 0 <;> cases canOpen <;> simp [checkBrackets, hb]

@[simp] theorem checkOperators_currentNum (s : State) :
    (checkOperators s).currentNum = s.currentNum := by
  by_cases hn : s.currentNum = "" <;> simp [checkOperators, hn]

@[simp] theorem checkOperators_currentSign (s : State) :
    (checkOperators s).currentSign = s.currentSign := by
  by_cases hn : s.currentNum = "" <;> simp [checkOperators, hn]

@[simp] theorem checkOperators_currentComma (s : State) :
    (checkOperators s).currentComma = s.currentComma := by
  by_cases hn : s.currentNum = "" <;> simp [checkOperators, hn]

@[simp] theorem checkOperators_bracketCount (s : State) :
    (checkOperators s).bracketCount = s.bracketCount := by
  by_cases hn : s.currentNum = "" <;> simp [checkOperators, hn]

@[simp] theorem checkOperators_stack (s : State) :
    (checkOperators s).stack = s.stack := by
  by_cases hn : s.currentNum = "" <;> simp [checkOperators, hn]

@[simp] theorem parseNum_currentNum (s : State) : (parseNum s).currentNum = "" := by
  by_cases hn : s.currentNum = "" <;> simp [parseNum, hn]

@[simp] theorem parseNum_bracketCount (s : State) :
    (parseNum s).bracketCount = s.bracketCount := by
  by_cases hn : s.currentNum = "" <;> simp [parseNum, hn]

@[simp] theorem parseNum_waitFor (s : State) : (parseNum s).waitFor = s.waitFor := by
  by_cases hn : s.currentNum = "" <;> simp [parseNum, hn]

theorem parseNum_stack (s : State) :
    (parseNum s).stack = if s.currentNum = "" then s.stack else s.stack ++ [formatNum s] := by
  by_cases hn : s.currentNum = "" <;> simp [parseNum, hn]

theorem parseNum_currentComma (s : State) :
    (parseNum s).currentComma = if s.currentNum = "" then s.currentComma else false := by
  by_cases hn : s.currentNum = "" <;> simp [parseNum, hn]

theorem parseNum_currentSign (s : State) :
    (parseNum s).currentSign = if s.currentNum = "" then s.currentSign else 1 := by
  by_cases hn : s.currentNum = "" <;> simp [parseNum, hn]

/-! ## What `input` returns on each key -/

theorem input_num_ok (errors : Errors) (s next : State) (v : String)
    (h : input errors s ⟨"num", v⟩ = Except.ok next) :
    "num" ∈ s.waitFor ∧
    next = checkOperators (checkBrackets
      (checkComma { s with currentNum := s.currentNum ++ v }) false) := by
  unfold input inputRun inputNum checkWait at h
  by_cases hw : "num" ∈ s.waitFor
  · simp [hw] at h
    exact ⟨hw, by subst h; simp⟩
  · simp [hw] at h

theorem input_sign_ok (errors : Errors) (s next : State)
    (h : input errors s ⟨"mod", "±"⟩ = Except.ok next) :
    "sign" ∈ s.waitFor ∧ next = { s with currentSign := s.currentSign * (-1) } := by
  unfold input inputRun inputSign checkWait at h
  by_cases hw : "sign" ∈ s.waitFor
  · simp [hw] at h
    exact ⟨hw, by subst h; simp⟩
  · simp [hw] at h

theorem input_comma_ok (errors : Errors) (s next : State)
    (h : input errors s ⟨"mod", ","⟩ = Except.ok next) :
    "comma" ∈ s.waitFor ∧
    next = { s with currentNum := s.currentNum ++ ".", currentComma := true,
                    waitFor := ["num", "sign"] } := by
  unfold input inputRun inputComma checkWait checkComma at h
  by_cases hw : "comma" ∈ s.waitFor
  · simp [hw] at h
    exact ⟨hw, by subst h; simp⟩
  · simp [hw] at h

theorem input_open_ok (errors : Errors) (s next : State)
    (h : input errors s ⟨"op", "("⟩ = Except.ok next) :
    "open-bracket" ∈ s.waitFor ∧
    next = checkBrackets { parseNum s with
      stack := (parseNum s).stack ++ ["("],
      bracketCount := (parseNum s).bracketCount + 1 } true := by
  unfold input inputRun inputOpenBracket checkWait at h
  by_cases hw : "open-bracket" ∈ s.waitFor
  · simp [hw] at h
    exact ⟨hw, by subst h; simp⟩
  · simp [hw] at h

theorem input_close_ok (errors : Errors) (s next : State)
    (h : input errors s ⟨"op", ")"⟩ = Except.ok next) :
    "close-bracket" ∈ s.waitFor ∧
    next = checkBrackets { parseNum s with
      stack := (parseNum s).stack ++ [")"],
      bracketCount := (parseNum s).bracketCount - 1 } true := by
  unfold input inputRun inputCloseBracket checkWait at h
  by_cases hw : "close-bracket" ∈ s.waitFor
  · simp [hw] at h
    exact ⟨hw, by subst h; simp⟩
  · simp [hw] at h

theorem input_operand_ok (errors : Errors) (s next : State) (v : String)
    (hv : v ≠ "(" ∧ v ≠ ")")
    (h : input errors s ⟨"op", v⟩ = Except.ok next) :
    "op" ∈ s.waitFor ∧
    next = checkOperators (checkBrackets
      { parseNum s with stack := (parseNum s).stack ++ [v] } true) := by
  unfold input inputRun inputOperand checkWait at h
  by_cases hw : "op" ∈ s.waitFor
  · simp [hw, hv.1, hv.2] at h
    exact ⟨hw, by subst h; simp⟩
  · simp [hw, hv.1, hv.2] at h

/-! ## The invariant -/

theorem digit_keys : ∀ v ∈ ["0", "1", "2", "3", "4", "5", "6", "7", "8", "9"],
    v ≠ "" ∧ ∀ c ∈ v.data, isDigit c = true ∧ c ≠ '.' := by
  decide

theorem string_ne_empty_iff (x : String) : x ≠ "" ↔ x.data ≠ [] := by
  rw [Ne, String.ext_iff]

theorem append_ne_empty (x v : String) (hv : v ≠ "") : x ++ v ≠ "" := by
  rw [string_ne_empty_iff] at *
  simp [String.data_append, hv]

theorem inv_reset : Inv reset := by
  constructor <;> simp [reset]

theorem inv_num {s : State} {v : String} (h : Inv s)
    (hv : v ≠ "" ∧ ∀ c ∈ v.data, isDigit c = true ∧ c ≠ '.') :
    Inv (checkOperators (checkBrackets
      (checkComma { s with currentNum := s.currentNum ++ v }) false)) := by
  have hne := append_ne_empty s.currentNum v hv.1
  have hb := h.nonneg
  have hdot : List.count '.' v.data = 0 :=
    List.count_eq_zero.2 (fun hc => (hv.2 _ hc).2 rfl)
  constructor
  · simp [String.data_append]
    intro c hc
    rcases hc with hc | hc
    · exact h.chars c hc
    · exact Or.inl (hv.2 c hc).1
  · simpa using h.count
  · simpa using h.nonneg
  · simp [mem_checkOperators, mem_checkBrackets, mem_checkComma, hne]
    omega
  · simp [mem_checkOperators, mem_checkBrackets, mem_checkComma, hne]
  · simp [hne]
  · simp [String.data_append, hdot]
    exact h.dots
  · simp [mem_checkOperators, mem_checkBrackets, mem_checkComma, hne]
  · simp [mem_checkOperators, mem_checkBrackets, mem_checkComma, hne]

theorem inv_sign {s : State} (h : Inv s) :
    Inv { s with currentSign := s.currentSign * (-1) } := by
  constructor
  · exact h.chars
  · exact h.count
  · exact h.nonneg
  · exact h.close
  · exact h.comma
  · exact h.commaNum
  · exact h.dots
  · exact h.num
  · exact h.openB

theorem inv_comma {s : State} (h : Inv s) (hw : "comma" ∈ s.waitFor) :
    Inv { s with currentNum := s.currentNum ++ ".", currentComma := true,
                 waitFor := ["num", "sign"] } := by
  have hne := append_ne_empty s.currentNum "." (by decide)
  have hc := h.comma hw
  have hd := h.dots
  constructor
  · simp [String.data_append]
    intro c hc
    rcases hc with hc | hc
    · exact h.chars c hc
    · exact Or.inr hc
  · exact h.count
  · exact h.nonneg
  · simp
  · simp
  · simp [hne]
  · simp [String.data_append]
    simpa [hc] using hd
  · simp
  · simp [hne]

theorem formatNum_not_bracket {s : State}
    (h : ∀ c ∈ s.currentNum.data, isDigit c = true ∨ c = '.') :
    formatNum s ≠ "(" ∧ formatNum s ≠ ")" := by
  unfold formatNum
  by_cases hs : s.currentSign > 0
  · simp only [hs, if_true]
    constructor
    · intro he
      have := h '(' (by rw [he]; decide)
      revert this; decide
    · intro he
      have := h ')' (by rw [he]; decide)
      revert this; decide
  · simp only [hs, if_false]
    have e1 : "(-".length = 2 := by decide
    have e2 : ")".length = 1 := by decide
    have e3 : "(".length = 1 := by decide
    constructor <;>
    · intro he
      have := congrArg String.length he
      rw [String.length_append, String.length_append] at this
      omega

theorem parseNum_count {s : State} (h : Inv s) (b : String) (hb : b = "(" ∨ b = ")") :
    (parseNum s).stack.count b = s.stack.count b := by
  rw [parseNum_stack]
  by_cases hn : s.currentNum = ""
  · simp [hn]
  · have hf := formatNum_not_bracket h.chars
    have : formatNum s ≠ b := by
      rcases hb with hb | hb <;> subst hb
      · exact hf.1
      · exact hf.2
    simp [hn, List.count_append, List.count_singleton, this]

theorem parseNum_comma_false {s : State} (h : Inv s) : (parseNum s).currentComma = false := by
  rw [parseNum_currentComma]
  by_cases hn : s.currentNum = ""
  · simp only [hn, if_true]
    cases hc : s.currentComma
    · rfl
    · exact absurd hn (h.commaNum hc)
  · simp [hn]

theorem inv_open {s : State} (h : Inv s) :
    Inv (checkBrackets { parseNum s with
      stack := (parseNum s).stack ++ ["("],
      bracketCount := (parseNum s).bracketCount + 1 } true) := by
  have hb := h.nonneg
  have hc := parseNum_comma_false h
  have h1 := parseNum_count h "(" (Or.inl rfl)
  have h2 := parseNum_count h ")" (Or.inr rfl)
  have hcount := h.count
  constructor
  · simp
  · simp [List.count_append, List.count_singleton, h1, h2]
    omega
  · simp; omega
  · simp [mem_checkBrackets]; omega
  · simp [mem_checkBrackets, hc]
  · simp [hc]
  · simp [hc]
  · simp [mem_checkBrackets, h.num]
  · simp [mem_checkBrackets]

theorem inv_close {s : State} (h : Inv s) (hw : "close-bracket" ∈ s.waitFor) :
    Inv (checkBrackets { parseNum s with
      stack := (parseNum s).stack ++ [")"],
      bracketCount := (parseNum s).bracketCount - 1 } true) := by
  have hb := h.close hw
  have hc := parseNum_comma_false h
  have h1 := parseNum_count h "(" (Or.inl rfl)
  have h2 := parseNum_count h ")" (Or.inr rfl)
  have hcount := h.count
  constructor
  · simp
  · simp [List.count_append, List.count_singleton, h1, h2]
    omega
  · simp; omega
  · simp [mem_checkBrackets]; omega
  · simp [mem_checkBrackets, hc]
  · simp [hc]
  · simp [hc]
  · simp [mem_checkBrackets, h.num]
  · simp [mem_checkBrackets]

theorem inv_operand {s : State} {v : String} (h : Inv s) (hv : v ≠ "(" ∧ v ≠ ")") :
    Inv (checkOperators (checkBrackets
      { parseNum s with stack := (parseNum s).stack ++ [v] } true)) := by
  have hb := h.nonneg
  have hcl := h.close
  have hc := parseNum_comma_false h
  have h1 := parseNum_count h "(" (Or.inl rfl)
  have h2 := parseNum_count h ")" (Or.inr rfl)
  have hcount := h.count
  constructor
  · simp
  · simp [List.count_append, List.count_singleton, h1, h2, hv.1, hv.2]
    omega
  · simpa using hb
  · simp [mem_checkOperators, mem_checkBrackets]; omega
  · simp [mem_checkOperators, mem_checkBrackets, hc]
  · simp [hc]
  · simp [hc]
  · simp [mem_checkOperators, mem_checkBrackets, h.num]
  · simp [mem_checkOperators, mem_checkBrackets]

theorem keypad_cases : ∀ a ∈ keypad,
    (a.type = "num" ∧ a.value ∈ ["0", "1", "2", "3", "4", "5", "6", "7", "8", "9"]) ∨
    a = ⟨"mod", ","⟩ ∨ a = ⟨"mod", "±"⟩ ∨ a = ⟨"op", "("⟩ ∨ a = ⟨"op", ")"⟩ ∨
    (a.type = "op" ∧ a.value ∈ ["+", "-", "×", "÷"]) := by
  decide

theorem operator_keys : ∀ v ∈ ["+", "-", "×", "÷"], v ≠ "(" ∧ v ≠ ")" := by
  decide

theorem inv_step (errors : Errors) {s next : State} {a : Action} (h : Inv s)
    (ha : a ∈ keypad) (hi : input errors s a = Except.ok next) : Inv next := by
  obtain ⟨t, v⟩ := a
  rcases keypad_cases _ ha with ⟨ht, hv⟩ | he | he | he | he | ⟨ht, hv⟩
  · simp only at ht hv
    subst ht
    obtain ⟨_, rfl⟩ := input_num_ok errors s next v hi
    exact inv_num h (digit_keys v hv)
  · rw [he] at hi
    obtain ⟨hw, rfl⟩ := input_comma_ok errors s next hi
    exact inv_comma h hw
  · rw [he] at hi
    obtain ⟨_, rfl⟩ := input_sign_ok errors s next hi
    exact inv_sign h
  · rw [he] at hi
    obtain ⟨_, rfl⟩ := input_open_ok errors s next hi
    exact inv_open h
  · rw [he] at hi
    obtain ⟨hw, rfl⟩ := input_close_ok errors s next hi
    exact inv_close h hw
  · simp only at ht hv
    subst ht
    obtain ⟨_, rfl⟩ := input_operand_ok errors s next v (operator_keys v hv) hi
    exact inv_operand h (operator_keys v hv)

theorem inv_of_reachable (errors : Errors) {s : State} (h : Reachable errors s) : Inv s := by
  induction h with
  | reset => exact inv_reset
  | step _ ha hi ih => exact inv_step errors ih ha hi

theorem reachable_inputs (errors : Errors) (keys : List Action) :
    ∀ (s next : State), Reachable errors s → (∀ a ∈ keys, a ∈ keypad) →
      inputs errors s keys = Except.ok next → Reachable errors next := by
  induction keys with
  | nil =>
    intro s next hs _ h
    simp only [inputs, Except.ok.injEq] at h
    exact h ▸ hs
  | cons a rest ih =>
    intro s next hs hk h
    simp only [inputs] at h
    cases hi : input errors s a with
    | error e => rw [hi] at h; cases h
    | ok mid =>
      rw [hi] at h
      exact ih mid next (Reachable.step hs (hk a (List.mem_cons_self _ _)) hi)
        (fun b hb => hk b (List.mem_cons_of_mem _ hb)) h

/-! ## Brackets -/

/-- C5: in every reachable state `bracketCount` is not negative and equals the
number of `(` tokens minus the number of `)` tokens on the stack. -/
theorem bracketCount_counts_unmatched (errors : Errors) (s : State)
    (h : Reachable errors s) :
    0 ≤ s.bracketCount ∧
    s.bracketCount = (s.stack.count "(" : Int) - (s.stack.count ")" : Int) :=
  ⟨(inv_of_reachable errors h).nonneg, (inv_of_reachable errors h).count⟩

/-- C5 at the state reached by the keys `( 3 + 4`: one unmatched bracket. -/
theorem bracketCount_counts_unmatched_witness :
    Reachable settingsErrors stateOpen34 ∧
    (0 ≤ stateOpen34.bracketCount ∧
     stateOpen34.bracketCount =
      (stateOpen34.stack.count "(" : Int) - (stateOpen34.stack.count ")" : Int)) :=
  have hr : Reachable settingsErrors stateOpen34 :=
    reachable_inputs settingsErrors
      [⟨"op", "("⟩, ⟨"num", "3"⟩, ⟨"op", "+"⟩, ⟨"num", "4"⟩] reset stateOpen34
      Reachable.reset (by decide) (by decide)
  ⟨hr, bracketCount_counts_unmatched settingsErrors stateOpen34 hr⟩

/-- C6: in a reachable state with `bracketCount` other than `0`, the evaluate
action only sets the error text of the unclosed bracket: the state `current`
and the result panel are left as they are, and nothing is evaluated. -/
theorem evaluate_unbalanced (errors : Errors) (c : Calculator)
    (h : Reachable errors c.current) (hb : c.current.bracketCount ≠ 0) :
    onClick errors c ⟨"act", "="⟩ =
      some { display := { c.display with error := "незакрыта скобка" },
             current := c.current } := by
  have hc := (inv_of_reachable errors h).count
  have hlen : c.current.stack.length ≠ 0 := by
    intro h0
    have hnil : c.current.stack = [] := List.length_eq_zero.1 h0
    rw [hnil] at hc
    simp at hc
    exact hb hc
  simp [onClick, hlen, hb, Display.setError]

/-- C6 on its two examples: after the keys `( 3 + 4` and after the single key
`(`, the evaluate key shows the error and changes nothing else. -/
theorem evaluate_unbalanced_witness :
    (clicks settingsErrors cleared
        [⟨"op", "("⟩, ⟨"num", "3"⟩, ⟨"op", "+"⟩, ⟨"num", "4"⟩]
      = some ⟨⟨"", "(3+4", "", false⟩, stateOpen34⟩ ∧
     onClick settingsErrors ⟨⟨"", "(3+4", "", false⟩, stateOpen34⟩ ⟨"act", "="⟩
      = some ⟨⟨"незакрыта скобка", "(3+4", "", false⟩, stateOpen34⟩) ∧
    (clicks settingsErrors cleared [⟨"op", "("⟩] = some ⟨⟨"", "(", "", false⟩, stateOpen⟩ ∧
     onClick settingsErrors ⟨⟨"", "(", "", false⟩, stateOpen⟩ ⟨"act", "="⟩
      = some ⟨⟨"незакрыта скобка", "(", "", false⟩, stateOpen⟩) :=
  ⟨⟨by decide,
    evaluate_unbalanced settingsErrors ⟨⟨"", "(3+4", "", false⟩, stateOpen34⟩
      (reachable_inputs settingsErrors
        [⟨"op", "("⟩, ⟨"num", "3"⟩, ⟨"op", "+"⟩, ⟨"num", "4"⟩] reset stateOpen34
        Reachable.reset (by decide) (by decide))
      (by decide)⟩,
   ⟨by decide,
    evaluate_unbalanced settingsErrors ⟨⟨"", "(", "", false⟩, stateOpen⟩
      (reachable_inputs settingsErrors [⟨"op", "("⟩] reset stateOpen
        Reachable.reset (by decide) (by decide))
      (by decide)⟩⟩

/-! ## The decimal point -/

/-- C7: in every reachable state the pending operand holds at most one decimal
point; and when a point has been placed (`currentComma`), the decimal-point key
is rejected with `delimiterAlreadySet`, leaving the state object, the variable
`current` and the equation panel as they were; a digit or a sign flip accepted
in such a state leads to a state where the point is still placed. -/
theorem second_comma_rejected (errors : Errors) (s : State) (h : Reachable errors s) :
    s.currentNum.data.count '.' ≤ 1 ∧
    (s.currentComma = true →
      input errors s ⟨"mod", ","⟩ = Except.error errors.delimiterAlreadySet ∧
      prevStateAfter errors s ⟨"mod", ","⟩ = s ∧
      (∀ d : Display, ∃ d1 : Display,
        onClick errors ⟨d, s⟩ ⟨"mod", ","⟩ = some ⟨d1, s⟩ ∧
        d1.equation = d.equation ∧ d1.error = errors.delimiterAlreadySet) ∧
      (∀ a next, a ∈ keypad → (a.type = "num" ∨ a = ⟨"mod", "±"⟩) →
        input errors s a = Except.ok next → next.currentComma = true)) := by
  have hi := inv_of_reachable errors h
  refine ⟨?_, fun hc => ?_⟩
  · rw [hi.dots]
    split <;> omega
  · have hw : "comma" ∉ s.waitFor := fun hw => by
      have := hi.comma hw
      rw [hc] at this
      cases this
    have hrun := inputRun_error errors s ⟨"mod", ","⟩ errors.delimiterAlreadySet
    have hthrown := hrun.1.2 ⟨"comma", by simp [required], hw⟩
    have he : input errors s ⟨"mod", ","⟩ = Except.error errors.delimiterAlreadySet :=
      (input_error_iff_run errors s _ _).2 hthrown
    have hp : prevStateAfter errors s ⟨"mod", ","⟩ = s := by
      simp [prevStateAfter, hrun.2 hthrown]
    refine ⟨he, hp, fun d => ?_, fun a next ha hk hin => ?_⟩
    · refine ⟨((if s.stack.length = 0 then d.setResult none else d).setError
        (some errors.delimiterAlreadySet)), ?_, ?_, ?_⟩
      · simp only [onClick]
        simp [he, hp]
      · by_cases hl : s.stack.length = 0 <;> simp [hl, Display.setError, Display.setResult]
      · simp [Display.setError]
    · rcases hk with hk | hk
      · obtain ⟨t, v⟩ := a
        simp only at hk
        subst hk
        obtain ⟨_, rfl⟩ := input_num_ok errors s next v hin
        simpa using hc
      · subst hk
        obtain ⟨_, rfl⟩ := input_sign_ok errors s next hin
        exact hc

/-- C7 on its scenario: the keys `5 , ,` from the empty calculator; the second
decimal point is rejected and the equation panel still reads `5.`. -/
theorem second_comma_rejected_witness :
    Reachable settingsErrors state5Point ∧ state5Point.currentComma = true ∧
    state5Point.currentNum.data.count '.' ≤ 1 ∧
    input settingsErrors state5Point ⟨"mod", ","⟩
      = Except.error settingsErrors.delimiterAlreadySet ∧
    clicks settingsErrors cleared [⟨"num", "5"⟩, ⟨"mod", ","⟩]
      = some ⟨⟨"", "5.", "", false⟩, state5Point⟩ ∧
    clicks settingsErrors cleared [⟨"num", "5"⟩, ⟨"mod", ","⟩, ⟨"mod", ","⟩]
      = some ⟨⟨"разделитель уже установлен", "5.", "", false⟩, state5Point⟩ :=
  have hr : Reachable settingsErrors state5Point :=
    reachable_inputs settingsErrors [⟨"num", "5"⟩, ⟨"mod", ","⟩] reset state5Point
      Reachable.reset (by decide) (by decide)
  ⟨hr, rfl, (second_comma_rejected settingsErrors state5Point hr).1,
   ((second_comma_rejected settingsErrors state5Point hr).2 rfl).1, by decide, by decide⟩

/-! ## The allowed-next set -/

theorem num_key_not_empty : ∀ a ∈ keypad, a.type = "num" → a.value ≠ "" := by
  decide

/-- C10 as stated fails: `reset()` and the state after the keys `3 +` agree on
the scalar fields (no pending operand, no point, no open bracket) but the sign
flip and the decimal point are allowed only in the second; the states after
`3 ,` and after `3 , 5` agree on them too (pending operand, point placed, no
open bracket) but an operator is allowed only in the second. -/
theorem waitFor_not_function_of_scalars :
    (Reachable settingsErrors reset ∧ Reachable settingsErrors state3Plus ∧
      reset.currentNum = "" ∧ state3Plus.currentNum = "" ∧
      reset.currentComma = state3Plus.currentComma ∧
      reset.bracketCount = state3Plus.bracketCount ∧
      "sign" ∉ reset.waitFor ∧ "sign" ∈ state3Plus.waitFor ∧
      "comma" ∉ reset.waitFor ∧ "comma" ∈ state3Plus.waitFor) ∧
    (Reachable settingsErrors state3Point ∧ Reachable settingsErrors state3Point5 ∧
      state3Point.currentNum ≠ "" ∧ state3Point5.currentNum ≠ "" ∧
      state3Point.currentComma = state3Point5.currentComma ∧
      state3Point.bracketCount = state3Point5.bracketCount ∧
      "op" ∉ state3Point.waitFor ∧ "op" ∈ state3Point5.waitFor) :=
  ⟨⟨Reachable.reset,
    reachable_inputs settingsErrors [⟨"num", "3"⟩, ⟨"op", "+"⟩] reset state3Plus
      Reachable.reset (by decide) (by decide),
    by decide, by decide, by decide, by decide, by decide, by decide, by decide, by decide⟩,
   ⟨reachable_inputs settingsErrors [⟨"num", "3"⟩, ⟨"mod", ","⟩] reset state3Point
      Reachable.reset (by decide) (by decide),
    reachable_inputs settingsErrors [⟨"num", "3"⟩, ⟨"mod", ","⟩, ⟨"num", "5"⟩] reset
      state3Point5 Reachable.reset (by decide) (by decide),
    by decide, by decide, by decide, by decide, by decide, by decide⟩⟩

/-- C10, amended: what the scalar fields do fix of `waitFor` in a reachable
state. A digit is always allowed; `(` is allowed exactly when there is no
pending operand; `)` is allowed only with an open bracket; the decimal point is
allowed only when none has been placed. At `reset()` the set is exactly
`{num, open-bracket}`, and right after a digit key it is exactly `num`, `sign`,
`op`, plus `comma` iff no point has been placed, plus `close-bracket` iff
`bracketCount > 0`. -/
theorem waitFor_of_reachable (errors : Errors) (s : State) (h : Reachable errors s) :
    "num" ∈ s.waitFor ∧
    ("open-bracket" ∈ s.waitFor ↔ s.currentNum = "") ∧
    ("close-bracket" ∈ s.waitFor → 0 < s.bracketCount) ∧
    ("comma" ∈ s.waitFor → s.currentComma = false) ∧
    (∀ x, x ∈ reset.waitFor ↔ x = "num" ∨ x = "open-bracket") ∧
    (∀ a next, a ∈ keypad → a.type = "num" → input errors s a = Except.ok next →
      ∀ x, x ∈ next.waitFor ↔
        x = "num" ∨ x = "sign" ∨ x = "op" ∨ (x = "comma" ∧ next.currentComma = false) ∨
        (x = "close-bracket" ∧ 0 < next.bracketCount)) := by
  have hi := inv_of_reachable errors h
  refine ⟨hi.num, hi.openB, hi.close, hi.comma, fun x => by simp [reset], ?_⟩
  intro a next ha ht hin x
  obtain ⟨t, v⟩ := a
  simp only at ht
  subst ht
  have hv : v ≠ "" := num_key_not_empty _ ha rfl
  obtain ⟨_, rfl⟩ := input_num_ok errors s next v hin
  have hne := append_ne_empty s.currentNum v hv
  have hb := hi.nonneg
  simp only [mem_checkOperators, mem_checkBrackets, mem_checkComma, checkOperators_currentNum,
    checkBrackets_currentNum, checkComma_currentNum, checkOperators_currentComma,
    checkBrackets_currentComma, checkComma_currentComma, checkOperators_bracketCount,
    checkBrackets_bracketCount, checkComma_bracketCount]
  by_cases hx : x = "close-bracket"
  · subst hx
    have h0 : s.bracketCount ≠ 0 ↔ 0 < s.bracketCount := by omega
    simp [h0]
  · simp [hx, hne]
    tauto

/-- C10, amended, at the state reached by the keys `3 +`: a digit and `(` are
allowed, `)` is not. -/
theorem waitFor_of_reachable_witness :
    Reachable settingsErrors state3Plus ∧ "num" ∈ state3Plus.waitFor ∧
    ("open-bracket" ∈ state3Plus.waitFor ↔ state3Plus.currentNum = "") ∧
    ("close-bracket" ∈ state3Plus.waitFor → 0 < state3Plus.bracketCount) :=
  have hr : Reachable settingsErrors state3Plus :=
    reachable_inputs settingsErrors [⟨"num", "3"⟩, ⟨"op", "+"⟩] reset state3Plus
      Reachable.reset (by decide) (by decide)
  ⟨hr, (waitFor_of_reachable settingsErrors state3Plus hr).1,
   (waitFor_of_reachable settingsErrors state3Plus hr).2.1,
   (waitFor_of_reachable settingsErrors state3Plus hr).2.2.1⟩

/-! ## `evaluatePostfix` and the invalid-expression error -/

theorem evalStep_length (stack : List Num) (token : String) :
    (evalStep stack token).length = depthStep stack.length token := by
  unfold evalStep depthStep isPushed
  by_cases hp : ((parseFloat token).truthy || token == "0") = true
  · simp [hp]
  · simp only [hp]
    cases ho : operators token with
    | none => simp
    | some f => simp; omega

theorem foldl_evalStep_length (tokens : List String) :
    ∀ stack : List Num,
      (tokens.foldl evalStep stack).length = tokens.foldl depthStep stack.length := by
  induction tokens with
  | nil => intro stack; rfl
  | cons t rest ih =>
    intro stack
    simp only [List.foldl_cons]
    rw [ih, evalStep_length]

theorem evalStack_length (expr : String) :
    (evalStack expr).length = depthAfter (split expr) := by
  unfold evalStack depthAfter
  exact foldl_evalStep_length _ []

theorem operandCount_cons (t : String) (rest : List String) :
    operandCount (t :: rest) = (if isPushed t then 1 else 0) + operandCount rest := by
  unfold operandCount
  cases hp : isPushed t <;> simp [List.filter_cons, hp]
  omega

theorem operatorCount_cons (t : String) (rest : List String) :
    operatorCount (t :: rest) =
      (if isPushed t then 0 else if (operators t).isSome then 1 else 0) +
        operatorCount rest := by
  unfold operatorCount
  cases hp : isPushed t <;> cases ho : (operators t).isSome <;>
    simp [List.filter_cons, hp, ho]
  omega

theorem depth_of_noUnderflow (tokens : List String) :
    ∀ depth, noUnderflow tokens depth = true →
      tokens.foldl depthStep depth + operatorCount tokens = depth + operandCount tokens := by
  induction tokens with
  | nil => intro depth _; simp [operatorCount, operandCount]
  | cons t rest ih =>
    intro depth h
    rw [operandCount_cons, operatorCount_cons, List.foldl_cons]
    cases hp : isPushed t
    · cases ho : (operators t).isSome
      · simp only [noUnderflow, hp, ho] at h
        have := ih depth (by simpa using h)
        simp [depthStep, hp, ho]
        omega
      · simp only [noUnderflow, hp, ho] at h
        simp at h
        have := ih (depth - 1) h.2
        have h2 : depth - 2 + 1 = depth - 1 := by omega
        simp [depthStep, hp, ho, h2]
        omega
    · simp only [noUnderflow, hp] at h
      have := ih (depth + 1) (by simpa using h)
      simp [depthStep, hp]
      omega

theorem depth_ge_operands (tokens : List String) :
    ∀ depth, depth + operandCount tokens ≤
      tokens.foldl depthStep depth + operatorCount tokens := by
  induction tokens with
  | nil => intro depth; simp [operatorCount, operandCount]
  | cons t rest ih =>
    intro depth
    rw [operandCount_cons, operatorCount_cons, List.foldl_cons]
    cases hp : isPushed t
    · cases ho : (operators t).isSome
      · have := ih depth
        simp [depthStep, hp, ho]
        omega
      · have := ih (depth - 2 + 1)
        simp [depthStep, hp, ho]
        omega
    · have := ih (depth + 1)
      simp [depthStep, hp]
      omega

theorem evaluatePostfix_error_iff (expr : String) :
    evaluatePostfix expr = Except.error "Invalid postfix expression" ↔
      (evalStack expr).length ≠ 1 := by
  unfold evaluatePostfix
  cases h : evalStack expr with
  | nil => simp
  | cons v rest =>
    cases rest with
    | nil => simp
    | cons w rest2 => simp

/-- C8 (fails on the code): in `3 +` the operator finds one value on the stack,
yet nothing is thrown: `pop()` on the empty stack gives `undefined`, the sum is
`NaN`, one value is left and it is returned. The keys `3 + =` print `NaN` as a
finished result. The check after the loop does throw for the empty input and
for `3 4`. -/
theorem evaluatePostfix_underflow_returns_nan :
    evaluatePostfix "3 +" = Except.ok Num.nan ∧
    noUnderflow (split "3 +") 0 = false ∧
    clicks settingsErrors cleared [⟨"num", "3"⟩, ⟨"op", "+"⟩, ⟨"act", "="⟩]
      = some ⟨⟨"", "3+", "NaN", true⟩, reset⟩ ∧
    evaluatePostfix "" = Except.error "Invalid postfix expression" ∧
    evaluatePostfix "3 4" = Except.error "Invalid postfix expression" := by
  refine ⟨?_, ?_, ?_, ?_, ?_⟩ <;> with_unfolding_all decide

/-- When `evaluatePostfix` throws, for an expression none of whose tokens names
an inherited member: exactly when the evaluation stack does not hold one value
after the last token, an operator on a stack of fewer than two values leaving
one value like any other; otherwise the value left is returned. So every
sequence with too many operands fails, and a sequence in which no operator
runs short of values fails exactly when its operands are not one more than its
operators. -/
theorem evaluatePostfix_error_by_depth (expr : String)
    (_hown : ∀ t ∈ split expr, inheritedMember t = false) :
    (evaluatePostfix expr = Except.error "Invalid postfix expression" ↔
      depthAfter (split expr) ≠ 1) ∧
    (depthAfter (split expr) = 1 →
      ∃ v, evalStack expr = [v] ∧ evaluatePostfix expr = Except.ok v) ∧
    (operatorCount (split expr) + 1 < operandCount (split expr) →
      evaluatePostfix expr = Except.error "Invalid postfix expression") ∧
    (noUnderflow (split expr) 0 = true →
      (evaluatePostfix expr = Except.error "Invalid postfix expression" ↔
        operandCount (split expr) ≠ operatorCount (split expr) + 1)) := by
  have hiff : evaluatePostfix expr = Except.error "Invalid postfix expression" ↔
      depthAfter (split expr) ≠ 1 := by
    rw [evaluatePostfix_error_iff, evalStack_length]
  refine ⟨hiff, fun h1 => ?_, fun hmany => ?_, fun hno => ?_⟩
  · rw [← evalStack_length] at h1
    cases h : evalStack expr with
    | nil => rw [h] at h1; cases h1
    | cons v rest =>
      cases rest with
      | nil => exact ⟨v, rfl, by simp [evaluatePostfix, h]⟩
      | cons w rest2 => rw [h] at h1; simp at h1
  · rw [hiff]
    have := depth_ge_operands (split expr) 0
    unfold depthAfter
    omega
  · rw [hiff]
    have := depth_of_noUnderflow (split expr) 0 hno
    unfold depthAfter
    omega

/-- The depth rule on examples: `3 4` (two operands, no operator) fails and
`3 4 +` returns `7`. -/
theorem evaluatePostfix_error_by_depth_examples :
    (operatorCount (split "3 4") + 1 < operandCount (split "3 4") ∧
      evaluatePostfix "3 4" = Except.error "Invalid postfix expression") ∧
    (depthAfter (split "3 4 +") = 1 ∧
      ∃ v, evalStack "3 4 +" = [v] ∧ evaluatePostfix "3 4 +" = Except.ok v) ∧
    evaluatePostfix "3 4 +" = Except.ok (Num.fin 7) :=
  ⟨⟨by with_unfolding_all decide,
    (evaluatePostfix_error_by_depth "3 4" (by decide)).2.2.1 (by with_unfolding_all decide)⟩,
   ⟨by with_unfolding_all decide,
    (evaluatePostfix_error_by_depth "3 4 +" (by decide)).2.1 (by with_unfolding_all decide)⟩,
   by with_unfolding_all decide⟩

/-! ## The format of the result -/

theorem tmod_pos_iff (n : ℤ) (d : ℕ) (hd : 0 < d) :
    0 < n.tmod d ↔ 0 < n ∧ ¬ (d : ℤ) ∣ n := by
  constructor
  · intro h
    constructor
    · by_contra hn
      have h1 : 0 ≤ (-n).tmod (d : ℤ) := Int.tmod_nonneg _ (by omega)
      have h2 : (-n).tmod (d : ℤ) = -(n.tmod d) := by
        rw [Int.tmod_def, Int.tmod_def, Int.neg_tdiv]
        ring
      omega
    · intro hdvd
      rw [Int.tmod_eq_zero_of_dvd hdvd] at h
      exact lt_irrefl _ h
  · rintro ⟨hn, hdvd⟩
    rw [Int.tmod_eq_emod (le_of_lt hn) (by omega)]
    rcases Int.emod_pos_of_not_dvd hdvd with h0 | h0
    · omega
    · exact h0

theorem rem_one_pos_iff (q : ℚ) :
    0 < q - ((q.num.tdiv q.den : ℤ) : ℚ) ↔ 0 < q ∧ q.den ≠ 1 := by
  have hd : 0 < q.den := q.den_pos
  have hdq : (0 : ℚ) < (q.den : ℚ) := by exact_mod_cast hd
  have h1 : 0 < q - ((q.num.tdiv q.den : ℤ) : ℚ) ↔ 0 < q.num.tmod q.den := by
    rw [sub_pos, ← mul_lt_mul_right hdq, Rat.mul_den_eq_num, Int.tmod_def]
    have hc := Int.mul_comm (q.num.tdiv q.den) (q.den : ℤ)
    constructor
    · intro h
      have h' : q.num.tdiv q.den * (q.den : ℤ) < q.num := by exact_mod_cast h
      omega
    · intro h
      have h' : q.num.tdiv q.den * (q.den : ℤ) < q.num := by omega
      exact_mod_cast h'
  rw [h1, tmod_pos_iff _ _ hd, Rat.num_pos]
  constructor
  · rintro ⟨hq, hdvd⟩
    refine ⟨hq, fun h1 => hdvd ?_⟩
    rw [h1]
    exact one_dvd _
  · rintro ⟨hq, hne⟩
    refine ⟨hq, fun hdvd => hne ?_⟩
    have h2 : q.den ∣ q.num.natAbs := by
      have := Int.natAbs_dvd_natAbs.2 hdvd
      simpa using this
    exact Nat.Coprime.eq_one_of_dvd q.reduced.symm h2

/-- What the evaluate action does for a finite result: two decimals exactly
when the result is positive and fractional, none otherwise. -/
theorem resultDecimals_fin (q : ℚ) :
    resultDecimals (Num.fin q) = if 0 < q ∧ q.den ≠ 1 then 2 else 0 := by
  unfold resultDecimals Num.rem
  simp only [one_ne_zero, if_false, div_one, one_mul, Num.gt]
  by_cases h : 0 < q ∧ q.den ≠ 1
  · rw [if_pos h, if_pos]
    simpa using (rem_one_pos_iff q).2 h
  · rw [if_neg h, if_neg]
    simpa using fun hh => h ((rem_one_pos_iff q).1 hh)


/-- C9 (fails on the code): the keys `7 ± ÷ 2 =` evaluate `-7 2 ÷` to `-3.5`, a
fractional value, but `-3.5 % 1` is `-0.5`, which is not `> 0`: the result is
printed with no decimals, as `-4`. The same keys without the sign flip print
`3.50`. -/
theorem negative_fraction_without_decimals :
    evaluatePostfix "-7 2 ÷" = Except.ok (Num.fin (-7 / 2)) ∧
    (Num.fin (-7 / 2)).fractional = true ∧
    Num.rem (Num.fin (-7 / 2)) (Num.fin 1) = Num.fin (-1 / 2) ∧
    resultDecimals (Num.fin (-7 / 2)) = 0 ∧
    clicks settingsErrors cleared
        [⟨"num", "7"⟩, ⟨"mod", "±"⟩, ⟨"op", "÷"⟩, ⟨"num", "2"⟩, ⟨"act", "="⟩]
      = some ⟨⟨"", "(-7)÷2", "-4", true⟩, reset⟩ ∧
    clicks settingsErrors cleared
        [⟨"num", "7"⟩, ⟨"op", "÷"⟩, ⟨"num", "2"⟩, ⟨"act", "="⟩]
      = some ⟨⟨"", "7÷2", "3.50", true⟩, reset⟩ := by
  refine ⟨?_, ?_, ?_, ?_, ?_, ?_⟩ <;> with_unfolding_all decide

/-! ## Sign flips and operators without an operand -/

/-- C11 (fails on the code): after the keys `3 +` there is no pending operand,
yet the sign flip is accepted, because no handler takes `sign` out of `waitFor`
once a digit has put it there; the equation then reads `3+(-)`. At `reset()`
the same key is rejected with `canNotChangeSign`. -/
theorem sign_flip_without_operand :
    inputs settingsErrors reset [⟨"num", "3"⟩, ⟨"op", "+"⟩] = Except.ok state3Plus ∧
    state3Plus.currentNum = "" ∧
    input settingsErrors state3Plus ⟨"mod", "±"⟩ = Except.ok state3PlusNeg ∧
    clicks settingsErrors cleared [⟨"num", "3"⟩, ⟨"op", "+"⟩, ⟨"mod", "±"⟩]
      = some ⟨⟨"", "3+(-)", "", false⟩, state3PlusNeg⟩ ∧
    input settingsErrors reset ⟨"mod", "±"⟩
      = Except.error settingsErrors.canNotChangeSign := by
  refine ⟨?_, ?_, ?_, ?_, ?_⟩ <;> decide

/-- C12 (fails on the code): after the keys `( 3 ) (` there is no pending
operand and the token sequence ends in `(`, yet the operator `+` is accepted:
`inputOpenBracket` does not run `checkOperators`, so the `op` that was allowed
after `)` is still allowed. At `reset()` and after `3 +` the same key is
rejected with `canNotSelectOperator`. -/
theorem operator_after_open_bracket :
    inputs settingsErrors reset [⟨"op", "("⟩, ⟨"num", "3"⟩, ⟨"op", ")"⟩, ⟨"op", "("⟩]
      = Except.ok stateCloseOpen ∧
    stateCloseOpen.currentNum = "" ∧ stateCloseOpen.stack.getLast? = some "(" ∧
    input settingsErrors stateCloseOpen ⟨"op", "+"⟩ = Except.ok stateCloseOpenPlus ∧
    stateCloseOpenPlus.stack = ["(", "3", ")", "(", "+"] ∧
    input settingsErrors reset ⟨"op", "+"⟩
      = Except.error settingsErrors.canNotSelectOperator ∧
    input settingsErrors state3Plus ⟨"op", "+"⟩
      = Except.error settingsErrors.canNotSelectOperator := by
  refine ⟨?_, ?_, ?_, ?_, ?_, ?_, ?_⟩ <;> decide

/-! ## Evaluating a lone operand -/

/-- C13 as stated fails: after the keys `9 ±` the evaluate key produces no
result; the result panel stays empty. -/
theorem scenario5_no_result :
    clicks settingsErrors cleared [⟨"num", "9"⟩, ⟨"mod", "±"⟩, ⟨"act", "="⟩]
      = some ⟨⟨"", "(-9)", "", false⟩, state9Neg⟩ := by
  decide

/-- C13, amended: from the empty state the keys `9 ±` are accepted and the
equation reads `(-9)`; the evaluate action then returns at once, because the
token stack is empty while the operand is still pending: calculator and panels
stay as they are, although the postfix of the state is `-9`, worth `-9`. The
clear key then gives the empty state with empty panels, as it does from every
calculator. -/
theorem scenario5_evaluate_returns_early :
    inputs settingsErrors reset [⟨"num", "9"⟩, ⟨"mod", "±"⟩] = Except.ok state9Neg ∧
    clicks settingsErrors cleared [⟨"num", "9"⟩, ⟨"mod", "±"⟩]
      = some ⟨⟨"", "(-9)", "", false⟩, state9Neg⟩ ∧
    onClick settingsErrors ⟨⟨"", "(-9)", "", false⟩, state9Neg⟩ ⟨"act", "="⟩
      = some ⟨⟨"", "(-9)", "", false⟩, state9Neg⟩ ∧
    getPostfixEquation state9Neg = some "-9" ∧
    evaluatePostfix "-9" = Except.ok (Num.fin (-9)) ∧
    (∀ (errors : Errors) (c : Calculator),
      onClick errors c ⟨"act", "C"⟩ = some ⟨⟨"", "", "", false⟩, reset⟩) := by
  refine ⟨?_, ?_, ?_, ?_, ?_, ?_⟩
  · decide
  · decide
  · decide
  · with_unfolding_all decide
  · with_unfolding_all decide
  · intro errors c
    simp [onClick, Display.reset, Display.setError, Display.setEquation, Display.setResult]

/-! ## The rendering of the equation -/

/-- C14 (fails on the code): in the state reached by the keys `3 + ±` there is
no pending operand, so the equation of the specification is `3+`, but
`getEquation` appends `formatNum(state)` without looking at `currentNum` and
returns `3+(-)`. -/
theorem getEquation_empty_negative_operand :
    inputs settingsErrors reset [⟨"num", "3"⟩, ⟨"op", "+"⟩, ⟨"mod", "±"⟩]
      = Except.ok state3PlusNeg ∧
    state3PlusNeg.currentNum = "" ∧
    join "" state3PlusNeg.stack ++ specPending state3PlusNeg = "3+" ∧
    getEquation state3PlusNeg = "3+(-)" ∧
    postfixItems state3PlusNeg = ["3", "+"] := by
  refine ⟨?_, ?_, ?_, ?_, ?_⟩ <;> decide

/-! ## After the decimal point -/

/-- C17 (fails on the code): right after the accepted decimal point of `5 ,`
the sign flip is accepted too: `inputComma` sets `waitFor` to `["num"]` and
then runs `checkComma`, which replaces it by `["num", "sign"]`. The operator
and both brackets are rejected, a digit is accepted. -/
theorem sign_flip_after_point :
    inputs settingsErrors reset [⟨"num", "5"⟩, ⟨"mod", ","⟩] = Except.ok state5Point ∧
    state5Point.waitFor = ["num", "sign"] ∧
    input settingsErrors state5Point ⟨"mod", "±"⟩ = Except.ok state5PointNeg ∧
    clicks settingsErrors cleared [⟨"num", "5"⟩, ⟨"mod", ","⟩, ⟨"mod", "±"⟩]
      = some ⟨⟨"", "(-5.)", "", false⟩, state5PointNeg⟩ ∧
    input settingsErrors state5Point ⟨"op", "+"⟩
      = Except.error settingsErrors.canNotSelectOperator ∧
    input settingsErrors state5Point ⟨"op", "("⟩
      = Except.error settingsErrors.canNotOpenBracket ∧
    input settingsErrors state5Point ⟨"op", ")"⟩
      = Except.error settingsErrors.canNotCloseBracket ∧
    (input settingsErrors state5Point ⟨"num", "2"⟩).toOption.map State.currentNum
      = some "5.2" := by
  refine ⟨?_, ?_, ?_, ?_, ?_, ?_, ?_, ?_⟩ <;> decide

/-! ## Zero operands in `evaluatePostfix` -/

set_option maxRecDepth 4096 in
/-- C19 (fails on the code): `00`, `0.0` and `-0` parse to zero, which is
falsy, and are not the string `0`: `evaluatePostfix` neither pushes them nor
finds them among the operators, so they are skipped. `5 00 +` then applies `+`
to a single value and returns `NaN`, and the keys `5 + 0 0 =` print `NaN`. The
token `0` itself is pushed. -/
theorem evaluatePostfix_skips_zero_spellings :
    parseFloat "00" = Num.fin 0 ∧ parseFloat "0.0" = Num.fin 0 ∧
    parseFloat "-0" = Num.fin 0 ∧
    evalStep [Num.fin 5] "00" = [Num.fin 5] ∧
    evalStep [Num.fin 5] "0.0" = [Num.fin 5] ∧
    evalStep [Num.fin 5] "-0" = [Num.fin 5] ∧
    evalStep [Num.fin 5] "0" = [Num.fin 0, Num.fin 5] ∧
    evaluatePostfix "5 00 +" = Except.ok Num.nan ∧
    evaluatePostfix "5 0 +" = Except.ok (Num.fin 5) ∧
    clicks settingsErrors cleared
        [⟨"num", "5"⟩, ⟨"op", "+"⟩, ⟨"num", "0"⟩, ⟨"num", "0"⟩, ⟨"act", "="⟩]
      = some ⟨⟨"", "5+00", "NaN", true⟩, reset⟩ := by
  refine ⟨?_, ?_, ?_, ?_, ?_, ?_, ?_, ?_, ?_, ?_⟩ <;> with_unfolding_all decide

/-! ## Digits -/

theorem input_num_accept (errors : Errors) (s : State) (v : String)
    (hw : "num" ∈ s.waitFor) :
    input errors s ⟨"num", v⟩ = Except.ok (checkOperators (checkBrackets
      (checkComma { s with currentNum := s.currentNum ++ v }) false)) := by
  simp [input, inputRun, inputNum, checkWait, hw]

theorem input_sign_accept (errors : Errors) (s : State) (hw : "sign" ∈ s.waitFor) :
    input errors s ⟨"mod", "±"⟩ =
      Except.ok { s with currentSign := s.currentSign * (-1) } := by
  simp [input, inputRun, inputSign, checkWait, hw]

/-- C16: a digit key accepted in a state whose `bracketCount` is not negative
appends the digit to `currentNum`, keeps sign, point flag, bracket count and
stack, and leaves exactly these categories allowed: `num`, `sign`, `op`, `comma`
iff no point has been placed, `close-bracket` iff `bracketCount > 0`; in
particular `open-bracket` is not allowed. -/
theorem digit_accepted_next_state (errors : Errors) (s next : State) (a : Action)
    (ha : a ∈ keypad) (ht : a.type = "num") (hb : 0 ≤ s.bracketCount)
    (hi : input errors s a = Except.ok next) :
    next.currentNum = s.currentNum ++ a.value ∧ next.currentSign = s.currentSign ∧
    next.currentComma = s.currentComma ∧ next.bracketCount = s.bracketCount ∧
    next.stack = s.stack ∧
    (∀ x, x ∈ next.waitFor ↔
      x = "num" ∨ x = "sign" ∨ x = "op" ∨ (x = "comma" ∧ next.currentComma = false) ∨
      (x = "close-bracket" ∧ 0 < next.bracketCount)) ∧
    "open-bracket" ∉ next.waitFor := by
  have hv : a.value ≠ "" := num_key_not_empty a ha ht
  obtain ⟨t, v⟩ := a
  simp only at ht hv
  subst ht
  obtain ⟨_, rfl⟩ := input_num_ok errors s next v hi
  have hne := append_ne_empty s.currentNum v hv
  refine ⟨by simp, by simp, by simp, by simp, by simp, fun x => ?_, ?_⟩
  · simp only [mem_checkOperators, mem_checkBrackets, mem_checkComma,
      checkOperators_currentNum, checkBrackets_currentNum, checkComma_currentNum,
      checkOperators_currentComma, checkBrackets_currentComma, checkComma_currentComma,
      checkOperators_bracketCount, checkBrackets_bracketCount, checkComma_bracketCount]
    by_cases hx : x = "close-bracket"
    · subst hx
      have h0 : s.bracketCount ≠ 0 ↔ 0 < s.bracketCount := by omega
      simp [h0]
    · simp [hx, hne]
      tauto
  · simp [mem_checkOperators, mem_checkBrackets, mem_checkComma, hne]

/-- C16 at `reset()` with the key `7`. -/
theorem digit_accepted_next_state_witness :
    input settingsErrors reset ⟨"num", "7"⟩
      = Except.ok ⟨"7", 1, false, 0, ["num", "sign", "comma", "op"], []⟩ ∧
    "open-bracket" ∉ (⟨"7", 1, false, 0, ["num", "sign", "comma", "op"], []⟩ : State).waitFor :=
  ⟨by decide,
   (digit_accepted_next_state settingsErrors reset
      ⟨"7", 1, false, 0, ["num", "sign", "comma", "op"], []⟩ ⟨"num", "7"⟩
      (by decide) rfl (by decide) (by decide)).2.2.2.2.2.2⟩

theorem run_digits_flips (errors : Errors) (keys : List Action) :
    ∀ s : State, s.stack = [] → s.currentNum ≠ "" → "num" ∈ s.waitFor →
      "sign" ∈ s.waitFor →
      (∀ a ∈ keys, (a.type = "num" ∧
          a.value ∈ ["0", "1", "2", "3", "4", "5", "6", "7", "8", "9"]) ∨ a = ⟨"mod", "±"⟩) →
      ∃ s1, inputs errors s keys = Except.ok s1 ∧ s1.stack = [] ∧
        s1.currentNum = s.currentNum ++ typedDigits keys ∧
        s1.currentSign = s.currentSign * (-1) ^ signFlips keys := by
  induction keys with
  | nil =>
    intro s hs _ _ _ _
    exact ⟨s, rfl, hs, by simp [typedDigits], by simp [signFlips]⟩
  | cons a rest ih =>
    intro s hs hn hnum hsign hk
    have hrest : ∀ b ∈ rest, (b.type = "num" ∧
        b.value ∈ ["0", "1", "2", "3", "4", "5", "6", "7", "8", "9"]) ∨ b = ⟨"mod", "±"⟩ :=
      fun b hb => hk b (List.mem_cons_of_mem _ hb)
    rcases hk a (List.mem_cons_self _ _) with ⟨ht, hv⟩ | he
    · obtain ⟨t, v⟩ := a
      simp only at ht hv
      subst ht
      have hacc := input_num_accept errors s v hnum
      have hne := append_ne_empty s.currentNum v (digit_keys v hv).1
      obtain ⟨s1, h1, h2, h3, h4⟩ := ih (checkOperators (checkBrackets
          (checkComma { s with currentNum := s.currentNum ++ v }) false))
        (by simpa using hs) (by simpa using hne)
        (by simp [mem_checkOperators, mem_checkBrackets, mem_checkComma])
        (by simp [mem_checkOperators, mem_checkBrackets, mem_checkComma]) hrest
      simp only [checkOperators_currentNum, checkBrackets_currentNum, checkComma_currentNum,
        checkOperators_currentSign, checkBrackets_currentSign, checkComma_currentSign] at h3 h4
      refine ⟨s1, by simp only [inputs, hacc]; exact h1, h2, ?_, ?_⟩
      · rw [h3]
        simp [typedDigits, String.append_assoc]
      · rw [h4]
        have hflip : (⟨"num", v⟩ : Action) ≠ ⟨"mod", "±"⟩ := by
          intro h
          have h0 : "num" = "mod" := congrArg Action.type h
          revert h0
          decide
        simp [signFlips, hflip]
    · subst he
      have hacc := input_sign_accept errors s hsign
      obtain ⟨s1, h1, h2, h3, h4⟩ := ih { s with currentSign := s.currentSign * (-1) }
        hs hn hnum hsign hrest
      refine ⟨s1, by simp only [inputs, hacc]; exact h1, h2, ?_, ?_⟩
      · rw [h3]
        simp [typedDigits]
      · rw [h4]
        simp only [signFlips, if_true]
        rw [Nat.add_comm, pow_succ]
        ring

/-- C15: a digit key followed by any run of digit keys and sign flips, typed
into the empty state, is accepted key by key; the token stack stays empty and
the equation reads exactly the typed digits, in order, when the number of sign
flips is even, and the same digits wrapped as `(-…)` when it is odd. -/
theorem digits_rendered (errors : Errors) (d : String) (keys : List Action)
    (hd : d ∈ ["0", "1", "2", "3", "4", "5", "6", "7", "8", "9"])
    (hk : ∀ a ∈ keys, (a.type = "num" ∧
        a.value ∈ ["0", "1", "2", "3", "4", "5", "6", "7", "8", "9"]) ∨ a = ⟨"mod", "±"⟩) :
    ∃ s, inputs errors reset (⟨"num", d⟩ :: keys) = Except.ok s ∧ s.stack = [] ∧
      getEquation s =
        if signFlips keys % 2 = 0 then typedDigits (⟨"num", d⟩ :: keys)
        else "(-" ++ typedDigits (⟨"num", d⟩ :: keys) ++ ")" := by
  have hacc := input_num_accept errors reset d (by decide)
  have hne : reset.currentNum ++ d ≠ "" := append_ne_empty _ d (digit_keys d hd).1
  obtain ⟨s, h1, h2, h3, h4⟩ := run_digits_flips errors keys (checkOperators (checkBrackets
      (checkComma { reset with currentNum := reset.currentNum ++ d }) false))
    (by simp [reset]) (by simpa using hne)
    (by simp [mem_checkOperators, mem_checkBrackets, mem_checkComma])
    (by simp [mem_checkOperators, mem_checkBrackets, mem_checkComma]) hk
  refine ⟨s, by simp only [inputs, hacc]; exact h1, h2, ?_⟩
  have hnum : s.currentNum = typedDigits (⟨"num", d⟩ :: keys) := by
    rw [h3]
    simp [typedDigits, reset]
  have hsign : s.currentSign = (-1) ^ signFlips keys := by
    rw [h4]
    simp [reset]
  unfold getEquation formatNum
  rw [h2, hsign, hnum]
  by_cases he : signFlips keys % 2 = 0
  · have hev : Even (signFlips keys) := Nat.even_iff.2 he
    simp [he, hev.neg_one_pow, join]
  · have hodd : Odd (signFlips keys) := Nat.odd_iff.2 (by omega)
    simp [he, hodd.neg_one_pow, join]

/-- C15 on the keys `1 ± 2 ± ± 3`: accepted, stack empty, equation `(-123)`. -/
theorem digits_rendered_witness :
    ∃ s, inputs settingsErrors reset
        [⟨"num", "1"⟩, ⟨"mod", "±"⟩, ⟨"num", "2"⟩, ⟨"mod", "±"⟩, ⟨"mod", "±"⟩, ⟨"num", "3"⟩]
        = Except.ok s ∧ s.stack = [] ∧ getEquation s = "(-123)" :=
  digits_rendered settingsErrors "1"
    [⟨"mod", "±"⟩, ⟨"num", "2"⟩, ⟨"mod", "±"⟩, ⟨"mod", "±"⟩, ⟨"num", "3"⟩]
    (by decide) (by decide)

/-! ## Termination of `infixToPostfix` -/

theorem popUntilOpen_some (ops : List String) :
    ∀ output : List String, 0 < ops.count "(" →
      ∃ r, popUntilOpen ops output = some r ∧ r.1.count "(" + 1 = ops.count "(" := by
  induction ops with
  | nil => intro output h; simp at h
  | cons top rest ih =>
    intro output h
    unfold popUntilOpen
    by_cases ht : top = "("
    · subst ht
      exact ⟨(rest, output), by simp, by simp⟩
    · have hne : ("(" : String) ≠ top := fun h0 => ht h0.symm
      have hc : (top :: rest).count "(" = rest.count "(" := by
        simp [List.count_cons, ht]
      rw [hc] at h ⊢
      obtain ⟨r, h1, h2⟩ := ih (output ++ [top]) h
      exact ⟨r, by simp [ht, h1], h2⟩

theorem popWhileGe_count (token : String) (ops : List String) :
    ∀ output : List String,
      (popWhileGe token ops output).1.count "(" = ops.count "(" := by
  induction ops with
  | nil => intro output; simp [popWhileGe]
  | cons top rest ih =>
    intro output
    unfold popWhileGe
    by_cases hg : precedenceGe top token = true
    · have ht : top ≠ "(" := by
        intro h0
        subst h0
        revert hg
        simp [precedenceGe, precedence]
      simp only [hg, if_true]
      rw [ih]
      simp [List.count_cons, ht]
    · simp [hg]

theorem infixLoop_some (tokens : List String) :
    ∀ (ops output : List String),
      closesMatched tokens (ops.count "(") = true →
      ∃ r, infixLoop tokens ops output = some r := by
  induction tokens with
  | nil => intro ops output _; exact ⟨_, rfl⟩
  | cons token rest ih =>
    intro ops output h
    unfold closesMatched at h
    unfold infixLoop infixStep
    by_cases hnum : (parseFloat token).truthy = true
    · have h1 : token ≠ "(" := by
        intro h0; subst h0; revert hnum; with_unfolding_all decide
      have h2 : token ≠ ")" := by
        intro h0; subst h0; revert hnum; with_unfolding_all decide
      simp only [h1, h2, if_false] at h
      simp only [hnum, if_true]
      exact ih ops (output ++ [token]) h
    · simp only [hnum]
      by_cases ho : token = "("
      · simp only [ho, if_true] at h ⊢
        exact ih ("(" :: ops) output (by simpa using h)
      · by_cases hc : token = ")"
        · subst hc
          simp only [ho, if_false, if_true, Bool.and_eq_true, decide_eq_true_eq] at h ⊢
          obtain ⟨r, h1, h2⟩ := popUntilOpen_some ops output h.1
          rw [h1]
          have h3 : r.1.count "(" = ops.count "(" - 1 := by omega
          exact ih r.1 r.2 (by rw [h3]; exact h.2)
        · simp only [ho, hc, if_false] at h ⊢
          refine ih _ _ ?_
          have hne : ("(" : String) ≠ token := fun h0 => ho h0.symm
          simp only [List.count_cons, popWhileGe_count]
          simpa [ho] using h

/-- C18: on an expression whose `)` tokens are each matched by an earlier
unclosed `(`, the pop-until-`(` loop always finds a `(` on the operator stack,
so `infixToPostfix` returns a string. -/
theorem infixToPostfix_terminates (expr : String)
    (h : closesMatched (split expr) 0 = true) :
    ∃ out, infixToPostfix expr = some out := by
  obtain ⟨r, hr⟩ := infixLoop_some (split expr) [] [] (by simpa using h)
  exact ⟨join " " (r.2 ++ r.1), by simp [infixToPostfix, hr]⟩

/-- C18 on `3 + 5 × ( 2 - 8 )`: every `)` is matched and a postfix string is
returned. -/
theorem infixToPostfix_terminates_witness :
    closesMatched (split "3 + 5 × ( 2 - 8 )") 0 = true ∧
    ∃ out, infixToPostfix "3 + 5 × ( 2 - 8 )" = some out :=
  ⟨by decide, infixToPostfix_terminates "3 + 5 × ( 2 - 8 )" (by decide)⟩

theorem infixToPostfix_unmatched_close :
    closesMatched (split "3 )") 0 = false ∧ infixToPostfix "3 )" = none := by
  constructor <;> with_unfolding_all decide

/-! ## Operators on the token stack -/

theorem isOperatorToken_iff (x : String) :
    isOperatorToken x = true ↔ x = "+" ∨ x = "-" ∨ x = "×" ∨ x = "÷" := by
  simp [isOperatorToken, or_assoc]

theorem noAdjacentOperators_append (l : List String) (t : String) :
    noAdjacentOperators (l ++ [t]) = true ↔
      noAdjacentOperators l = true ∧
      ∀ x, l.getLast? = some x → ¬(isOperatorToken x = true ∧ isOperatorToken t = true) := by
  induction l with
  | nil => simp [noAdjacentOperators]
  | cons a rest ih =>
    cases rest with
    | nil =>
      simp [noAdjacentOperators]
      cases isOperatorToken a <;> cases isOperatorToken t <;> simp
    | cons b rest2 =>
      have ih2 : noAdjacentOperators (b :: (rest2 ++ [t])) = true ↔
          noAdjacentOperators (b :: rest2) = true ∧
          ∀ x, (b :: rest2).getLast? = some x →
            ¬(isOperatorToken x = true ∧ isOperatorToken t = true) := ih
      have e : a :: b :: rest2 ++ [t] = a :: b :: (rest2 ++ [t]) := rfl
      rw [e]
      simp only [noAdjacentOperators, Bool.and_eq_true]
      rw [ih2, List.getLast?_cons_cons, and_assoc]

theorem formatNum_not_operator {s : State}
    (h : ∀ c ∈ s.currentNum.data, isDigit c = true ∨ c = '.') :
    isOperatorToken (formatNum s) = false := by
  unfold formatNum
  by_cases hs : s.currentSign > 0
  · simp only [hs, if_true]
    by_contra hop
    have hop2 : isOperatorToken s.currentNum = true := by simpa using hop
    rcases (isOperatorToken_iff _).1 hop2 with he | he | he | he
    · have := h '+' (by rw [he]; decide)
      revert this; decide
    · have := h '-' (by rw [he]; decide)
      revert this; decide
    · have := h '×' (by rw [he]; decide)
      revert this; decide
    · have := h '÷' (by rw [he]; decide)
      revert this; decide
  · simp only [hs, if_false]
    have e1 : "(-".length = 2 := by decide
    have e2 : ")".length = 1 := by decide
    by_contra hop
    have hop2 : isOperatorToken ("(-" ++ s.currentNum ++ ")") = true := by simpa using hop
    have hlen : ("(-" ++ s.currentNum ++ ")").length = 1 := by
      rcases (isOperatorToken_iff _).1 hop2 with he | he | he | he <;> rw [he] <;> decide
    rw [String.length_append, String.length_append] at hlen
    omega

theorem parseNum_noAdjacent {s : State} (h : Inv s) (ho : OpInv s) :
    noAdjacentOperators (parseNum s).stack = true ∧
    ∀ x, (parseNum s).stack.getLast? = some x → isOperatorToken x = true →
      s.currentNum = "" ∧ s.stack.getLast? = some x := by
  rw [parseNum_stack]
  by_cases hn : s.currentNum = ""
  · simp only [hn, if_true]
    exact ⟨ho.chain, fun x hx _ => ⟨trivial, hx⟩⟩
  · have hf := formatNum_not_operator h.chars
    simp only [hn, if_false]
    refine ⟨(noAdjacentOperators_append _ _).2 ⟨ho.chain, fun x _ hx => ?_⟩, fun x hx hop => ?_⟩
    · rw [hf] at hx
      exact Bool.false_ne_true hx.2
    · simp at hx
      subst hx
      rw [hf] at hop
      exact absurd hop Bool.false_ne_true

theorem opInv_reset : OpInv reset := by
  constructor <;> simp [reset, noAdjacentOperators]

theorem opInv_step (errors : Errors) {s next : State} {a : Action} (h : Inv s)
    (ho : OpInv s) (ha : a ∈ keypad) (hi : input errors s a = Except.ok next) :
    OpInv next := by
  obtain ⟨t, v⟩ := a
  rcases keypad_cases _ ha with ⟨ht, hv⟩ | he | he | he | he | ⟨ht, hv⟩
  · simp only at ht hv
    subst ht
    obtain ⟨_, rfl⟩ := input_num_ok errors s next v hi
    have hne := append_ne_empty s.currentNum v (digit_keys v hv).1
    constructor
    · simpa using ho.chain
    · intro h0
      simp at h0
      exact absurd h0 hne
    · intro h0
      simp at h0
      exact absurd h0 hne
  · rw [he] at hi
    obtain ⟨_, rfl⟩ := input_comma_ok errors s next hi
    have hne := append_ne_empty s.currentNum "." (by decide)
    constructor
    · exact ho.chain
    · intro h0
      exact absurd h0 hne
    · intro h0
      exact absurd h0 hne
  · rw [he] at hi
    obtain ⟨_, rfl⟩ := input_sign_ok errors s next hi
    exact ⟨ho.chain, ho.lastOp, ho.emptyOp⟩
  · rw [he] at hi
    obtain ⟨_, rfl⟩ := input_open_ok errors s next hi
    have hp := parseNum_noAdjacent h ho
    constructor
    · simp only [checkBrackets_stack]
      exact (noAdjacentOperators_append _ _).2 ⟨hp.1, fun x _ hx => by
        have : isOperatorToken "(" = false := by decide
        rw [this] at hx
        exact Bool.false_ne_true hx.2⟩
    · intro _ t ht hop
      simp at ht
      subst ht
      exact absurd hop (by decide)
    · intro _ hs
      simp at hs
  · rw [he] at hi
    obtain ⟨_, rfl⟩ := input_close_ok errors s next hi
    have hp := parseNum_noAdjacent h ho
    constructor
    · simp only [checkBrackets_stack]
      exact (noAdjacentOperators_append _ _).2 ⟨hp.1, fun x _ hx => by
        have : isOperatorToken ")" = false := by decide
        rw [this] at hx
        exact Bool.false_ne_true hx.2⟩
    · intro _ t ht hop
      simp at ht
      subst ht
      exact absurd hop (by decide)
    · intro _ hs
      simp at hs
  · simp only at ht hv
    subst ht
    obtain ⟨hw, rfl⟩ := input_operand_ok errors s next v (operator_keys v hv) hi
    have hp := parseNum_noAdjacent h ho
    constructor
    · simp only [checkOperators_stack, checkBrackets_stack]
      refine (noAdjacentOperators_append _ _).2 ⟨hp.1, fun x hx hop => ?_⟩
      obtain ⟨hn, hlast⟩ := hp.2 x hx hop.1
      exact ho.lastOp hn x hlast hop.1 hw
    · intro _ _ _ _
      simp [mem_checkOperators]
    · intro _ hs
      simp at hs

theorem opInv_of_reachable (errors : Errors) {s : State} (h : Reachable errors s) :
    OpInv s := by
  induction h with
  | reset => exact opInv_reset
  | step hr ha hi ih => exact opInv_step errors (inv_of_reachable errors hr) ih ha hi

theorem op_not_added (errors : Errors) {s next : State} {a : Action}
    (ha : a ∈ keypad) (ht : a.type ≠ "num") (hi : input errors s a = Except.ok next)
    (hop : "op" ∉ s.waitFor) : "op" ∉ next.waitFor := by
  obtain ⟨t, v⟩ := a
  rcases keypad_cases _ ha with ⟨ht2, _⟩ | he | he | he | he | ⟨ht2, hv⟩
  · exact absurd ht2 ht
  · rw [he] at hi
    obtain ⟨_, rfl⟩ := input_comma_ok errors s next hi
    simp
  · rw [he] at hi
    obtain ⟨_, rfl⟩ := input_sign_ok errors s next hi
    exact hop
  · rw [he] at hi
    obtain ⟨_, rfl⟩ := input_open_ok errors s next hi
    simp [mem_checkBrackets, hop]
  · rw [he] at hi
    obtain ⟨_, rfl⟩ := input_close_ok errors s next hi
    simp [mem_checkBrackets, hop]
  · simp only at ht2 hv
    subst ht2
    obtain ⟨hw, _⟩ := input_operand_ok errors s next v (operator_keys v hv) hi
    exact absurd hw hop

theorem op_stays_out (errors : Errors) (keys : List Action) :
    ∀ s s1 : State, "op" ∉ s.waitFor → (∀ k ∈ keys, k ∈ keypad ∧ k.type ≠ "num") →
      inputs errors s keys = Except.ok s1 → "op" ∉ s1.waitFor := by
  induction keys with
  | nil =>
    intro s s1 hop _ h
    simp only [inputs, Except.ok.injEq] at h
    exact h ▸ hop
  | cons a rest ih =>
    intro s s1 hop hk h
    simp only [inputs] at h
    cases hi : input errors s a with
    | error e => rw [hi] at h; cases h
    | ok mid =>
      rw [hi] at h
      have hka := hk a (List.mem_cons_self _ _)
      exact ih mid s1 (op_not_added errors hka.1 hka.2 hi hop)
        (fun b hb => hk b (List.mem_cons_of_mem _ hb)) h

theorem operator_rejected (errors : Errors) (s : State) (w : String)
    (hw : w ∈ ["+", "-", "×", "÷"]) (hop : "op" ∉ s.waitFor) :
    input errors s ⟨"op", w⟩ = Except.error errors.canNotSelectOperator := by
  have hb := operator_keys w hw
  rw [input_error_iff_run]
  exact (inputRun_error errors s ⟨"op", w⟩ _).1.2
    ⟨"op", by simp [required, hb.1, hb.2], hop⟩

/-- C20: in every reachable state no two neighbours on the token stack are
both operators. An accepted operator key first pushes the pending operand, if
any, and then the operator; from then on every operator key is rejected with
`canNotSelectOperator`, whatever keys other than digits are accepted in
between. -/
theorem no_adjacent_operators (errors : Errors) (s : State) (h : Reachable errors s) :
    noAdjacentOperators s.stack = true ∧
    (∀ v ∈ ["+", "-", "×", "÷"], ∀ next, input errors s ⟨"op", v⟩ = Except.ok next →
      next.stack = (if s.currentNum = "" then s.stack else s.stack ++ [formatNum s]) ++ [v] ∧
      ∀ keys s1, (∀ k ∈ keys, k ∈ keypad ∧ k.type ≠ "num") →
        inputs errors next keys = Except.ok s1 →
        ∀ w ∈ ["+", "-", "×", "÷"],
          input errors s1 ⟨"op", w⟩ = Except.error errors.canNotSelectOperator) := by
  refine ⟨(opInv_of_reachable errors h).chain, fun v hv next hi => ?_⟩
  obtain ⟨_, rfl⟩ := input_operand_ok errors s next v (operator_keys v hv) hi
  refine ⟨by simp [parseNum_stack], fun keys s1 hk hrun w hw => ?_⟩
  refine operator_rejected errors s1 w hw (op_stays_out errors keys _ s1 ?_ hk hrun)
  simp [mem_checkOperators]

/-- C20 at the state reached by the keys `3 + 5 × ( 2 - 8 )`: no two
neighbouring operators; and after `3 +`, then `(` and a sign flip, the
operator `×` is rejected. -/
theorem no_adjacent_operators_witness :
    noAdjacentOperators stateScenario1.stack = true ∧
    input settingsErrors
        ⟨"", -1, false, 1, ["num", "sign", "comma", "open-bracket", "close-bracket",
          "open-bracket"], ["3", "+", "("]⟩ ⟨"op", "×"⟩
      = Except.error settingsErrors.canNotSelectOperator :=
  ⟨(no_adjacent_operators settingsErrors stateScenario1
      (reachable_inputs settingsErrors
        [⟨"num", "3"⟩, ⟨"op", "+"⟩, ⟨"num", "5"⟩, ⟨"op", "×"⟩, ⟨"op", "("⟩,
         ⟨"num", "2"⟩, ⟨"op", "-"⟩, ⟨"num", "8"⟩, ⟨"op", ")"⟩] reset stateScenario1
        Reachable.reset (by decide) (by decide))).1,
   ((no_adjacent_operators settingsErrors ⟨"3", 1, false, 0, ["num", "sign", "comma", "op"], []⟩
      (reachable_inputs settingsErrors [⟨"num", "3"⟩] reset _
        Reachable.reset (by decide) (by decide))).2 "+" (by decide)
      state3Plus (by decide)).2 [⟨"op", "("⟩, ⟨"mod", "±"⟩] _ (by decide) (by decide)
      "×" (by decide)⟩

/-- The part of the operator rule that the code keeps: in a reachable state
with no pending operand whose token stack is empty or ends in an operator,
every operator key is rejected with `canNotSelectOperator`. -/
theorem operator_rejected_after_operator (errors : Errors) (s : State)
    (h : Reachable errors s) (hn : s.currentNum = "")
    (hlast : s.stack = [] ∨ ∃ t, s.stack.getLast? = some t ∧ isOperatorToken t = true)
    (w : String) (hw : w ∈ ["+", "-", "×", "÷"]) :
    input errors s ⟨"op", w⟩ = Except.error errors.canNotSelectOperator := by
  have ho := opInv_of_reachable errors h
  refine operator_rejected errors s w hw ?_
  rcases hlast with he | ⟨t, ht, hop⟩
  · exact ho.emptyOp hn he
  · exact ho.lastOp hn t ht hop

end RpnCalculator
